import Mathlib

/-!
Verification of the output-normalization pipeline of a CLI SDK:
a JSON parser for single-JSON and stream-JSON subprocess output
(`_internal/parser/json_parser.py`) and the orchestrating client
(`_internal/client.py`), embedded shallowly.

Python strings are modelled as `List Char`; Python `json.loads` is
modelled by an executable fuel-based JSON decoder; Python dynamic
faults (`AttributeError`, `TypeError`, `json.JSONDecodeError`) are
modelled with `Except`.  The wall clock read by
`_generate_session_id` is modelled as a function `clock : Nat → Nat`
giving the millisecond reading observed by the k-th clock call of a
parse, together with a running call counter.
-/

namespace GeminiSdk

/-- JSON values as produced by `json.loads`: objects are association
lists in textual order (duplicate keys do not occur in the payloads
considered here).  Numbers are modelled as integers; no behaviour
verified below involves fractional numbers. -/
inductive Json where
  | obj (pairs : List (String × Json))
  | arr (items : List Json)
  | str (s : String)
  | num (n : Int)
  | bool (b : Bool)
  | null

/-- Python truthiness (`if x:`) for the JSON-decoded values. -/
def jTruthy : Json → Bool
  | .null => false
  | .bool b => b
  | .num n => n != 0
  | .str s => s != ""
  | .arr l => !l.isEmpty
  | .obj l => !l.isEmpty

/-- Lookup of a key in a decoded JSON object's fields, with a default:
`fields.get(k, d)`. -/
def fieldD (fields : List (String × Json)) (k : String) (d : Json) : Json :=
  ((fields.find? (fun p => p.1 == k)).map Prod.snd).getD d

/-- Total `get`-with-default on a JSON value: equals Python `j.get(k, d)`
when `j` is a dict, and returns the default otherwise.  Used on values
known (or hypothesised) to be objects. -/
def jGetD (j : Json) (k : String) (d : Json) : Json :=
  match j with
  | .obj fields => fieldD fields k d
  | _ => d

def isObjB : Json → Bool
  | .obj _ => true
  | _ => false

def isNumB : Json → Bool
  | .num _ => true
  | _ => false

def intOf : Json → Int
  | .num n => n
  | _ => 0

/-- Characters removed by Python `str.strip()` (ASCII whitespace). -/
def pyWs (c : Char) : Bool :=
  c == ' ' || c == '\t' || c == '\n' || c == '\r' ||
  c == Char.ofNat 11 || c == Char.ofNat 12

/-- Python `s.strip()` on the character-list model. -/
def pyStrip (cs : List Char) : List Char :=
  ((cs.dropWhile pyWs).reverse.dropWhile pyWs).reverse

/-- Python `s.split("\n")` on the character-list model: splitting on a
single newline separator; `split` of the empty text is `[""]`. -/
def splitLines : List Char → List (List Char)
  | [] => [[]]
  | c :: rest =>
    match splitLines rest with
    | [] => []
    | l :: ls => if c == '\n' then [] :: l :: ls else (c :: l) :: ls

/-- Python `"\n".join(lines)` on the character-list model. -/
def joinNL : List (List Char) → List Char
  | [] => []
  | [l] => l
  | l :: ls => l ++ '\n' :: joinNL ls

/-- Decimal digit test on the code point. -/
def isDecDigit (c : Char) : Bool :=
  48 ≤ c.toNat && c.toNat ≤ 57

/-- Decimal digit run to a natural number accumulator. -/
def digitsToNat (acc : Nat) : List Char → Nat × List Char
  | c :: cs =>
    if isDecDigit c then digitsToNat (acc * 10 + (c.toNat - 48)) cs
    else (acc, c :: cs)
  | [] => (acc, [])

/-- Value of one hexadecimal digit character, on the code point. -/
def hexDigitVal (c : Char) : Option Nat :=
  let n := c.toNat
  if 48 ≤ n && n ≤ 57 then some (n - 48)
  else if 97 ≤ n && n ≤ 102 then some (n - 87)
  else if 65 ≤ n && n ≤ 70 then some (n - 55)
  else none

/-- Body of a JSON string literal after the opening quote: returns the
decoded characters and the remaining input after the closing quote.
Mirrors the strict `json.loads` rules: raw control characters and
unknown escapes are rejected. -/
def pString (fuel : Nat) (acc : List Char) (cs : List Char) :
    Option (List Char × List Char) :=
  match fuel, cs with
  | 0, _ => none
  | _, [] => none
  | fuel + 1, c :: cs =>
    if c == '"' then some (acc.reverse, cs)
    else if c == '\\' then
      match cs with
      | [] => none
      | e :: cs =>
        if e == '"' then pString fuel ('"' :: acc) cs
        else if e == '\\' then pString fuel ('\\' :: acc) cs
        else if e == '/' then pString fuel ('/' :: acc) cs
        else if e == 'n' then pString fuel ('\n' :: acc) cs
        else if e == 't' then pString fuel ('\t' :: acc) cs
        else if e == 'r' then pString fuel ('\r' :: acc) cs
        else if e == 'b' then pString fuel (Char.ofNat 8 :: acc) cs
        else if e == 'f' then pString fuel (Char.ofNat 12 :: acc) cs
        else if e == 'u' then
          match cs with
          | h1 :: h2 :: h3 :: h4 :: cs =>
            match hexDigitVal h1, hexDigitVal h2, hexDigitVal h3, hexDigitVal h4 with
            | some a, some b, some c2, some d =>
              pString fuel (Char.ofNat (((a * 16 + b) * 16 + c2) * 16 + d) :: acc) cs
            | _, _, _, _ => none
          | _ => none
        else none
    else if c.toNat < 32 then none
    else pString fuel (c :: acc) cs

mutual

/-- One JSON value, preceded by optional whitespace; fractional or
exponent-bearing numbers are outside the model. -/
def pVal (fuel : Nat) (cs : List Char) : Option (Json × List Char) :=
  match fuel with
  | 0 => none
  | fuel + 1 =>
    match cs.dropWhile pyWs with
    | [] => none
    | c :: rest =>
      if c == '{' then
        match (rest.dropWhile pyWs) with
        | '}' :: rest2 => some (.obj [], rest2)
        | _ => pMembers fuel [] rest
      else if c == '[' then
        match (rest.dropWhile pyWs) with
        | ']' :: rest2 => some (.arr [], rest2)
        | _ => pElems fuel [] rest
      else if c == '"' then
        match pString (fuel + 1) [] rest with
        | some (sChars, rest2) => some (.str (String.mk sChars), rest2)
        | none => none
      else if c == 't' then
        match rest with
        | 'r' :: 'u' :: 'e' :: rest2 => some (.bool true, rest2)
        | _ => none
      else if c == 'f' then
        match rest with
        | 'a' :: 'l' :: 's' :: 'e' :: rest2 => some (.bool false, rest2)
        | _ => none
      else if c == 'n' then
        match rest with
        | 'u' :: 'l' :: 'l' :: rest2 => some (.null, rest2)
        | _ => none
      else if c == '-' then
        match rest with
        | d :: _ =>
          if isDecDigit d then
            let (n, rest2) := digitsToNat 0 rest
            some (.num (-(n : Int)), rest2)
          else none
        | [] => none
      else if isDecDigit c then
        let (n, rest2) := digitsToNat 0 (c :: rest)
        some (.num (n : Int), rest2)
      else none

/-- Members of a JSON object after the opening brace (at least one
member present). -/
def pMembers (fuel : Nat) (acc : List (String × Json)) (cs : List Char) :
    Option (Json × List Char) :=
  match fuel with
  | 0 => none
  | fuel + 1 =>
    match cs.dropWhile pyWs with
    | '"' :: rest =>
      match pString (fuel + 1) [] rest with
      | some (kChars, rest2) =>
        match rest2.dropWhile pyWs with
        | ':' :: rest3 =>
          match pVal fuel rest3 with
          | some (v, rest4) =>
            let acc := acc ++ [(String.mk kChars, v)]
            match rest4.dropWhile pyWs with
            | ',' :: rest5 => pMembers fuel acc rest5
            | '}' :: rest5 => some (.obj acc, rest5)
            | _ => none
          | none => none
        | _ => none
      | none => none
    | _ => none

/-- Elements of a JSON array after the opening bracket (at least one
element present). -/
def pElems (fuel : Nat) (acc : List Json) (cs : List Char) :
    Option (Json × List Char) :=
  match fuel with
  | 0 => none
  | fuel + 1 =>
    match pVal fuel cs with
    | some (v, rest) =>
      let acc := acc ++ [v]
      match rest.dropWhile pyWs with
      | ',' :: rest2 => pElems fuel acc rest2
      | ']' :: rest2 => some (.arr acc, rest2)
      | _ => none
    | none => none

end

/-- The model of `json.loads` on the character-list representation of
the text: one JSON document with optional surrounding whitespace;
`none` models a raised `json.JSONDecodeError`. -/
def jsonDecode (cs : List Char) : Option Json :=
  match pVal (cs.length + 16) cs with
  | some (j, rest) => if (rest.dropWhile pyWs).isEmpty then some j else none
  | none => none

/-- Whether `pat` occurs as a contiguous run at the start of `cs`. -/
def headMatches : List Char → List Char → Bool
  | [], _ => true
  | _ :: _, [] => false
  | p :: ps, c :: cs => p == c && headMatches ps cs

/-- Python substring containment `pat in cs`. -/
def containsSeq (pat : List Char) : List Char → Bool
  | [] => headMatches pat []
  | c :: cs => headMatches pat (c :: cs) || containsSeq pat cs

end GeminiSdk


namespace GeminiSdk

/-- True when the text begins with the character `{`. -/
def startsWithBrace : List Char → Bool
  | '{' :: _ => true
  | _ => false

/-- True when the text begins with the character `[`. -/
def startsWithBracket : List Char → Bool
  | '[' :: _ => true
  | _ => false

/-- Modelled from the spec: the ContentBlock variants of the message
model (`types.py` is outside the provided sources).  Only `text` is
produced by the JSON parser; the rest exist for forward compatibility.
Payload fields hold the decoded JSON values verbatim, as the pure data
contract of the spec stores what the parser passes. -/
inductive ContentBlock where
  | text (text : Json)
  | code (code : Json) (language : Json)
  | toolUse (toolName : Json) (input : Json)
  | toolResult (toolName : Json) (output : Json) (isError : Bool)

/-- Modelled from the spec: the Message variants of the message model
(`types.py` is outside the provided sources).  `result` carries
subtype, duration_ms, is_error, session_id, num_turns, total_cost_usd,
usage and result; optional fields default to `none` when a
construction site omits them. -/
inductive Message where
  | system (subtype : Json) (data : List (String × Json))
  | user (content : Json)
  | assistant (content : List ContentBlock)
  | result (subtype : Json) (durationMs : Json) (isError : Bool)
      (sessionId : Json) (numTurns : Nat) (totalCostUsd : Option Json)
      (usage : Option Json) (res : Option Json)

/-- Python-level faults that can escape the parser's helpers:
`json.JSONDecodeError` raised as `CLIJSONDecodeError` by the
single-JSON branch, `AttributeError` from calling `.get`/`.items` on a
non-dict, and `TypeError` from `+`/slicing on unsupported operands. -/
inductive PyFault where
  | cliJSONDecode
  | attributeError
  | typeError

/-- Python `x.get(k, d)`: succeeds exactly on dicts. -/
def pyGetD (j : Json) (k : String) (d : Json) : Except PyFault Json :=
  match j with
  | .obj fields => .ok (fieldD fields k d)
  | _ => .error .attributeError

/-- Python `x.items()`: succeeds exactly on dicts. -/
def pyItems (j : Json) : Except PyFault (List (String × Json)) :=
  match j with
  | .obj fields => .ok fields
  | _ => .error .attributeError

/-- Python `acc + v` for an integer accumulator: integers and booleans
add, anything else raises `TypeError`. -/
def pyAddInt (acc : Int) : Json → Except PyFault Int
  | .num n => .ok (acc + n)
  | .bool b => .ok (acc + (if b then 1 else 0))
  | _ => .error .typeError

/-- Python `v[:100]`: slicing is defined on strings and lists; the
first 100 characters of a string. -/
def pySlice100 : Json → Except PyFault Json
  | .str s => .ok (.str (String.mk (s.data.take 100)))
  | .arr l => .ok (.arr (l.take 100))
  | _ => .error .typeError

/-- `_generate_session_id`: `f"gemini-{int(datetime.now().timestamp() * 1000)}"`
at the millisecond reading `t`. -/
def genId (t : Nat) : String :=
  "gemini-" ++ toString t

/-- Loop body of `_parse_single_json` over `stats.models.items()`:
accumulates `total_duration_ms` and `total_tokens`. -/
def statsFold : List (String × Json) → Int → Int → Except PyFault (Int × Int)
  | [], dur, tok => .ok (dur, tok)
  | (_, modelData) :: rest, dur, tok => do
    let apiStats ← pyGetD modelData "api" (.obj [])
    let tokenStats ← pyGetD modelData "tokens" (.obj [])
    let lat ← pyGetD apiStats "totalLatencyMs" (.num 0)
    let dur ← pyAddInt dur lat
    let tot ← pyGetD tokenStats "total" (.num 0)
    let tok ← pyAddInt tok tot
    statsFold rest dur tok

/-- `_parse_single_json` after `json.loads` succeeded on the payload:
builds the optional AssistantMessage and the terminal ResultMessage.
Returns the messages together with the clock-call counter after the
one `_generate_session_id()` call. -/
def parseSingleData (clock : Nat → Nat) (ctr : Nat) (data : Json) :
    Except PyFault (List Message × Nat) := do
  let responseText ← pyGetD data "response" (.str "")
  let headMsgs :=
    if jTruthy responseText then [Message.assistant [.text responseText]] else []
  let stats ← pyGetD data "stats" (.obj [])
  let modelsStats ← pyGetD stats "models" (.obj [])
  let items ← pyItems modelsStats
  let (totalDurationMs, totalTokens) ← statsFold items 0 0
  let totalCost : Int := 0
  let toolStats ← pyGetD stats "tools" (.obj [])
  let toolCalls ← pyGetD toolStats "totalCalls" (.num 0)
  let sid := genId (clock ctr)
  let res ← if jTruthy responseText then do
      let sliced ← pySlice100 responseText
      pure (some sliced)
    else pure none
  .ok (headMsgs ++
    [Message.result (.str "success") (.num totalDurationMs) false (.str sid) 1
      (if totalCost > 0 then some (.num totalCost) else none)
      (some (.obj [("total_tokens", .num totalTokens),
                   ("tool_calls", toolCalls),
                   ("models", modelsStats)]))
      res], ctr + 1)

/-- `_parse_single_json` on the payload text: `json.loads` then the
message construction; a decode failure raises `CLIJSONDecodeError`. -/
def parseSingleChars (clock : Nat → Nat) (ctr : Nat) (cs : List Char) :
    Except PyFault (List Message × Nat) :=
  match jsonDecode cs with
  | none => .error .cliJSONDecode
  | some data => parseSingleData clock ctr data

/-- The mutable locals of `_parse_stream_json` across lines: the
`session_id` variable (`none` is Python `None`) and the clock-call
counter. -/
structure StreamState where
  sid : Option Json
  ctr : Nat

/-- Truthiness of the `session_id` variable (`session_id or ...`). -/
def sidTruthy : Option Json → Bool
  | none => false
  | some j => jTruthy j

/-- Dispatch of one decoded stream-JSON object on its `"type"` field;
`fields` are the members of the decoded line (a line whose text starts
with `{` always decodes to an object). -/
def streamDispatch (clock : Nat → Nat) (st : StreamState)
    (fields : List (String × Json)) :
    Except PyFault (List Message × StreamState) :=
  match fieldD fields "type" .null with
  | .str "init" =>
    let fresh := genId (clock st.ctr)
    let sid := fieldD fields "session_id" (.str fresh)
    .ok ([Message.system (.str "init")
            [("session_id", sid),
             ("model", fieldD fields "model" .null),
             ("timestamp", fieldD fields "timestamp" .null)]],
         ⟨some sid, st.ctr + 1⟩)
  | .str "message" =>
    let role := fieldD fields "role" .null
    let content := fieldD fields "content" (.str "")
    match role with
    | .str "user" => .ok ([Message.user content], st)
    | .str "assistant" =>
      .ok ((if jTruthy content then [Message.assistant [.text content]] else []), st)
    | _ => .ok ([], st)
  | .str "result" => do
    let stats := fieldD fields "stats" (.obj [])
    let subtype := fieldD fields "status" (.str "success")
    let durationMs ← pyGetD stats "duration_ms" (.num 0)
    let isErr :=
      match fieldD fields "status" .null with
      | .str "error" => true
      | _ => false
    let (sidVal, ctr2) :=
      if sidTruthy st.sid then (st.sid.getD .null, st.ctr)
      else (Json.str (genId (clock st.ctr)), st.ctr + 1)
    let totalTokens ← pyGetD stats "total_tokens" (.num 0)
    let inputTokens ← pyGetD stats "input_tokens" (.num 0)
    let outputTokens ← pyGetD stats "output_tokens" (.num 0)
    let toolCalls ← pyGetD stats "tool_calls" (.num 0)
    .ok ([Message.result subtype durationMs isErr sidVal 1 none
            (some (.obj [("total_tokens", totalTokens),
                         ("input_tokens", inputTokens),
                         ("output_tokens", outputTokens),
                         ("tool_calls", toolCalls)]))
            none],
         ⟨st.sid, ctr2⟩)
  | .str "error" =>
    let (sidVal, ctr2) :=
      if sidTruthy st.sid then (st.sid.getD .null, st.ctr)
      else (Json.str (genId (clock st.ctr)), st.ctr + 1)
    .ok ([Message.result (.str "error") (.num 0) true sidVal 0 none none
            (some (fieldD fields "message" (.str "Unknown error")))],
         ⟨st.sid, ctr2⟩)
  | _ => .ok ([], st)

/-- One iteration of the `_parse_stream_json` line loop: strip the
line, skip blank or non-`{` lines, skip lines `json.loads` rejects,
and dispatch the rest. -/
def streamStep (clock : Nat → Nat) (st : StreamState) (line : List Char) :
    Except PyFault (List Message × StreamState) :=
  let line := pyStrip line
  if line.isEmpty || !startsWithBrace line then .ok ([], st)
  else
    match jsonDecode line with
    | none => .ok ([], st)
    | some (.obj fields) => streamDispatch clock st fields
    | some _ => .ok ([], st)

/-- The `_parse_stream_json` line loop over a list of lines,
accumulating emitted messages and threading the state. -/
def streamLoop (clock : Nat → Nat) (st : StreamState) :
    List (List Char) → Except PyFault (List Message × StreamState)
  | [] => .ok ([], st)
  | line :: rest => do
    let (ms, st2) ← streamStep clock st line
    let (ms2, st3) ← streamLoop clock st2 rest
    .ok (ms ++ ms2, st3)

/-- `_parse_stream_json` on the payload text: strip, split on
newlines, run the line loop. -/
def parseStreamChars (clock : Nat → Nat) (cs : List Char) :
    Except PyFault (List Message × StreamState) :=
  streamLoop clock ⟨none, 0⟩ (splitLines (pyStrip cs))

/-- Loop of `_clean_output`: keep lines whose stripped form starts
with `{` or `[`, and once any were kept (`json_lines` non-empty) keep
every later line verbatim. -/
def cleanLines : List (List Char) → Bool → List (List Char)
  | [], _ => []
  | l :: rest, started =>
    let s := pyStrip l
    if startsWithBrace s || startsWithBracket s then l :: cleanLines rest true
    else if started then l :: cleanLines rest true
    else cleanLines rest started

/-- `_clean_output`: strip the raw output, split on newlines, filter
by the loop above, rejoin with newlines. -/
def cleanOutput (output : List Char) : List Char :=
  joinNL (cleanLines (splitLines (pyStrip output)) false)

/-- The format-detection condition of `parse`:
`cleaned_output.strip().startswith("{") and "\n{" not in cleaned_output`. -/
def detectSingleJson (cleaned : List Char) : Bool :=
  startsWithBrace (pyStrip cleaned) && !containsSeq ['\n', '{'] cleaned

/-- `ParsingError` wrapping the fault that escaped a parse branch. -/
inductive ParseError where
  | parsingError (original : PyFault)

/-- `JSONParser.parse`: empty or whitespace-only stdout yields no
messages; otherwise clean, detect the format, and run the matching
branch, wrapping any escaping fault in `ParsingError`.  The `stderr`
argument is accepted and never examined, as in the source. -/
def parse (rawOutput stderr : String) (clock : Nat → Nat) :
    Except ParseError (List Message) :=
  if rawOutput.data.isEmpty || (pyStrip rawOutput.data).isEmpty then .ok []
  else
    let cleaned := cleanOutput rawOutput.data
    if cleaned.isEmpty then .ok []
    else if detectSingleJson cleaned then
      ((parseSingleChars clock 0 cleaned).map Prod.fst).mapError .parsingError
    else
      ((parseStreamChars clock cleaned).map Prod.fst).mapError .parsingError

end GeminiSdk



namespace GeminiSdk

/-- Faults observable by `InternalClient.process_query`: transport
faults raised by `connect`/`execute`, and the `ParsingError` raised by
`parse`.  A transport fault carries its display text. -/
inductive Fault where
  | transportFault (text : String)
  | parseFault (e : ParseError)

/-- Modelled from the spec: `str(e)` for the faults above
(`_errors.py` is outside the provided sources; the spec specifies
only "stringified fault").  `ParsingError` displays the message it is
constructed with in `parse`. -/
def Fault.strOf : Fault → String
  | .transportFault t => t
  | .parseFault _ => "Failed to parse Gemini CLI JSON output"

/-- A transport as `process_query` observes it: the outcome of
`connect()` and of `execute(prompt, options)`.  `disconnect` is
modelled as always succeeding. -/
structure TransportBehavior where
  connectR : Except Fault Unit
  executeR : Except Fault (String × String)

/-- The configuration fields `process_query` reads. -/
structure GeminiOptions where
  model : Option String
  cwd : Option String
  sandbox : Bool
  yolo : Bool

/-- What a full consumption of the `process_query` generator observes:
the yielded messages in order, the fault propagated after them (if
any), and whether `disconnect` ran. -/
structure QueryOutcome where
  msgs : List Message
  fault : Option Fault
  disconnected : Bool

/-- The synthetic terminal message `process_query` yields on a fault. -/
def clientErrorResult (f : Fault) : Message :=
  .result (.str "error_during_execution") (.num 0) true (.str "error") 0
    none none (some (.str f.strOf))

/-- The synthetic `SystemMessage(subtype="init")` emitted by
`process_query`: resolved model (options, else the `GEMINI_MODEL`
environment value, else the hardcoded default), resolved working
directory, the active parser's class name, and the sandbox/yolo
flags. -/
def initSystemMessage (opts : GeminiOptions) (envModel : Option String)
    (cwdDefault : String) : Message :=
  .system (.str "init")
    [("model", .str (opts.model.getD (envModel.getD "gemini-2.0-flash"))),
     ("cwd", .str (opts.cwd.getD cwdDefault)),
     ("parser", .str "JSONParser"),
     ("sandbox", .bool opts.sandbox),
     ("yolo", .bool opts.yolo)]

/-- `InternalClient.process_query`: connect, yield the synthetic init
and user-echo messages, execute, parse, forward the parsed messages;
on any fault yield one synthetic error ResultMessage and propagate the
fault; run `disconnect` on every exit path (the `finally`). -/
def processQuery (t : TransportBehavior) (prompt : String)
    (opts : GeminiOptions) (envModel : Option String) (cwdDefault : String)
    (clock : Nat → Nat) : QueryOutcome :=
  match t.connectR with
  | .error f => ⟨[clientErrorResult f], some f, true⟩
  | .ok () =>
    let pre := [initSystemMessage opts envModel cwdDefault,
                Message.user (.str prompt)]
    match t.executeR with
    | .error f => ⟨pre ++ [clientErrorResult f], some f, true⟩
    | .ok (stdout, stderr) =>
      match parse stdout stderr clock with
      | .error e =>
        let f := Fault.parseFault e
        ⟨pre ++ [clientErrorResult f], some f, true⟩
      | .ok ms => ⟨pre ++ ms, none, true⟩

end GeminiSdk

namespace GeminiSdk

/-- True exactly for `SystemMessage`s. -/
def isSystemB : Message → Bool
  | .system _ _ => true
  | _ => false

/-- True exactly for `ResultMessage`s. -/
def isResultB : Message → Bool
  | .result _ _ _ _ _ _ _ _ => true
  | _ => false

/-- Session id of a `ResultMessage`, if the message is one. -/
def sessionIdOf : Message → Option Json
  | .result _ _ _ sid _ _ _ _ => some sid
  | _ => none

/-- Every `SystemMessage` of the sequence comes before every
non-System message. -/
def systemsFirst (ms : List Message) : Bool :=
  (ms.dropWhile isSystemB).all (fun m => !isSystemB m)

/-- The `stats.models` value of a single-JSON payload. -/
def modelsOf (data : Json) : Json :=
  jGetD (jGetD data "stats" (.obj [])) "models" (.obj [])

/-- The per-model entries of `stats.models`. -/
def modelFieldsOf (data : Json) : List (String × Json) :=
  match modelsOf data with
  | .obj fields => fields
  | _ => []

/-- The `stats.tools` value of a single-JSON payload. -/
def toolsOf (data : Json) : Json :=
  jGetD (jGetD data "stats" (.obj [])) "tools" (.obj [])

/-- The `stats.tools.totalCalls` value of a single-JSON payload. -/
def toolCallsOf (data : Json) : Json :=
  jGetD (toolsOf data) "totalCalls" (.num 0)

/-- Sum over the model entries of `api.totalLatencyMs`. -/
def sumLatFs : List (String × Json) → Int
  | [] => 0
  | p :: rest =>
    intOf (jGetD (jGetD p.2 "api" (.obj [])) "totalLatencyMs" (.num 0)) + sumLatFs rest

/-- Sum over the model entries of `tokens.total`. -/
def sumTokFs : List (String × Json) → Int
  | [] => 0
  | p :: rest =>
    intOf (jGetD (jGetD p.2 "tokens" (.obj [])) "total" (.num 0)) + sumTokFs rest

/-- Sum over all models of `api.totalLatencyMs` in a single-JSON payload. -/
def sumLatency (data : Json) : Int := sumLatFs (modelFieldsOf data)

/-- Sum over all models of `tokens.total` in a single-JSON payload. -/
def sumTokens (data : Json) : Int := sumTokFs (modelFieldsOf data)

/-- Shape of one `stats.models` entry that the single-JSON statistics
loop consumes without a dynamic fault, with numeric latency and token
totals. -/
def modelOkB (md : Json) : Bool :=
  isObjB md && isObjB (jGetD md "api" (.obj [])) &&
  isObjB (jGetD md "tokens" (.obj [])) &&
  isNumB (jGetD (jGetD md "api" (.obj [])) "totalLatencyMs" (.num 0)) &&
  isNumB (jGetD (jGetD md "tokens" (.obj [])) "total" (.num 0))

/-- Well-formed single-JSON payload: the shapes the raw subprocess
output contract gives to `stats.models.{api,tokens}` and
`stats.tools`. -/
def wellFormedSingle (data : Json) : Bool :=
  isObjB data && isObjB (jGetD data "stats" (.obj [])) &&
  isObjB (modelsOf data) &&
  (modelFieldsOf data).all (fun p => modelOkB p.2) &&
  isObjB (toolsOf data)

/-- On objects the fallible Python `get` is the total lookup. -/
theorem pyGetD_of_obj (j : Json) (k : String) (d : Json)
    (h : isObjB j = true) : pyGetD j k d = .ok (jGetD j k d) := by
  cases j <;> simp_all [isObjB, pyGetD, jGetD]

/-- C9: the parse result is independent of the stderr argument: for
every stdout and clock, any two stderr values give the same message
sequence, since the JSON parser never examines stderr. -/
theorem parse_ignores_stderr (raw e1 e2 : String) (clock : Nat → Nat) :
    parse raw e1 clock = parse raw e2 clock := rfl

/-- C5: parse selects single-JSON mode exactly when the trimmed
cleaned text starts with `{` and the cleaned text has no
newline-then-`{` occurrence; every other cleaned text selects
stream-JSON mode. -/
theorem detectSingleJson_iff (cleaned : List Char) :
    detectSingleJson cleaned = true ↔
      (startsWithBrace (pyStrip cleaned) = true ∧
       containsSeq ['\n', '{'] cleaned = false) := by
  simp [detectSingleJson]

end GeminiSdk

namespace GeminiSdk

/-- On an object value, `items()` returns the fields of `stats.models`. -/
theorem pyItems_modelsOf (data : Json) (h : isObjB (modelsOf data) = true) :
    pyItems (modelsOf data) = .ok (modelFieldsOf data) := by
  unfold modelFieldsOf
  cases hm : modelsOf data <;> simp_all [isObjB, pyItems]

/-- Bind on a successful `Except` computation. -/
theorem exBind_ok {e : Type} {a b : Type} (v : a) (f : a → Except e b) :
    (Except.ok v >>= f) = f v := rfl

/-- Bind on a failed `Except` computation. -/
theorem exBind_error {e : Type} {a b : Type} (x : e) (f : a → Except e b) :
    ((Except.error x : Except e a) >>= f) = .error x := rfl

/-- A value satisfying `isNumB` is a number. -/
theorem isNumB_num (j : Json) (h : isNumB j = true) : ∃ n, j = .num n := by
  cases j <;> simp_all [isNumB]

/-- The statistics loop on well-shaped model entries accumulates the
latency and token sums without a fault. -/
theorem statsFold_ok (fs : List (String × Json)) :
    ∀ d t : Int, (∀ p ∈ fs, modelOkB p.2 = true) →
    statsFold fs d t = .ok (d + sumLatFs fs, t + sumTokFs fs) := by
  induction fs with
  | nil => intro d t _; simp [statsFold, sumLatFs, sumTokFs]
  | cons p rest ih =>
    intro d t h
    have hp := h p (List.mem_cons_self _ _)
    have hrest : ∀ q ∈ rest, modelOkB q.2 = true :=
      fun q hq => h q (List.mem_cons_of_mem _ hq)
    simp only [modelOkB, Bool.and_eq_true] at hp
    obtain ⟨⟨⟨⟨hmd, hapi⟩, htok⟩, hlat⟩, htot⟩ := hp
    obtain ⟨nl, hl⟩ := isNumB_num _ hlat
    obtain ⟨nt, ht⟩ := isNumB_num _ htot
    simp only [statsFold, pyGetD_of_obj _ _ _ hmd, pyGetD_of_obj _ _ _ hapi,
      pyGetD_of_obj _ _ _ htok, hl, ht, exBind_ok, pyAddInt]
    rw [ih (d + nl) (t + nt) hrest]
    simp only [sumLatFs, sumTokFs, hl, ht, intOf]
    congr 2 <;> omega


end GeminiSdk

namespace GeminiSdk

/-- Single-JSON decode of a well-formed payload whose `response` field
is a non-empty string: one AssistantMessage and one success
ResultMessage with the summed statistics, using one clock call. -/
theorem parseSingleData_response (clock : Nat → Nat) (ctr : Nat) (data : Json)
    (r : String) (hwf : wellFormedSingle data = true)
    (hr : jGetD data "response" (.str "") = .str r) (hne : r ≠ "") :
    parseSingleData clock ctr data =
      .ok ([Message.assistant [.text (.str r)],
            Message.result (.str "success") (.num (sumLatency data)) false
              (.str (genId (clock ctr))) 1 none
              (some (.obj [("total_tokens", .num (sumTokens data)),
                           ("tool_calls", toolCallsOf data),
                           ("models", modelsOf data)]))
              (some (.str (String.mk (r.data.take 100))))], ctr + 1) := by
  simp only [wellFormedSingle, Bool.and_eq_true] at hwf
  obtain ⟨⟨⟨⟨hdata, hstats⟩, hmodels⟩, hall⟩, htools⟩ := hwf
  have hallm : ∀ p ∈ modelFieldsOf data, modelOkB p.2 = true :=
    fun p hp => (List.all_eq_true.mp hall) p hp
  have htr : jTruthy (.str r) = true := by simp [jTruthy, hne]
  have hitems := pyItems_modelsOf data hmodels
  have hfold := statsFold_ok (modelFieldsOf data) 0 0 hallm
  have htoolsOk := pyGetD_of_obj (toolsOf data) "totalCalls" (.num 0) htools
  simp only [modelsOf] at hitems
  simp only [toolsOf] at htoolsOk
  simp only [parseSingleData, pyGetD_of_obj _ _ _ hdata,
    pyGetD_of_obj _ _ _ hstats, hr, exBind_ok, hitems, hfold, htoolsOk, htr,
    if_true, pySlice100]
  simp [modelsOf, toolsOf, toolCallsOf, sumLatency, sumTokens]

end GeminiSdk

namespace GeminiSdk

/-- Cleaning a whitespace-only output yields the empty text. -/
theorem cleanOutput_of_strip_nil (x : List Char) (h : pyStrip x = []) :
    cleanOutput x = [] := by
  unfold cleanOutput
  rw [h]
  rfl

/-- When format detection holds on the cleaned output, `parse` runs
the single-JSON branch on it. -/
theorem parse_single_branch (raw e : String) (clock : Nat → Nat)
    (hdet : detectSingleJson (cleanOutput raw.data) = true) :
    parse raw e clock =
      ((parseSingleChars clock 0 (cleanOutput raw.data)).map
        Prod.fst).mapError .parsingError := by
  have h1 : (pyStrip raw.data).isEmpty = false := by
    cases hs : pyStrip raw.data with
    | nil =>
      rw [cleanOutput_of_strip_nil raw.data hs] at hdet
      exact absurd hdet (by decide)
    | cons a l => rfl
  have h0 : raw.data.isEmpty = false := by
    cases hz : raw.data with
    | nil =>
      rw [hz] at h1
      exact absurd h1 (by decide)
    | cons a l => rfl
  have h2 : (cleanOutput raw.data).isEmpty = false := by
    cases hc : cleanOutput raw.data with
    | nil =>
      rw [hc] at hdet
      exact absurd hdet (by decide)
    | cons a l => rfl
  simp [parse, h0, h1, h2, hdet]

/-- C1: for every well-formed single-JSON payload whose top-level
`response` is a non-empty string, `parse` yields exactly one
AssistantMessage holding one TextBlock with the response text,
followed by exactly one success ResultMessage with is_error = false,
duration_ms the sum over all models of `api.totalLatencyMs`,
usage.total_tokens the sum over all models of `tokens.total`, and
result the first 100 characters of the response. -/
theorem parse_singleJson_response (raw e : String) (clock : Nat → Nat)
    (data : Json) (r : String)
    (hdet : detectSingleJson (cleanOutput raw.data) = true)
    (hdec : jsonDecode (cleanOutput raw.data) = some data)
    (hwf : wellFormedSingle data = true)
    (hr : jGetD data "response" (.str "") = .str r) (hne : r ≠ "") :
    parse raw e clock =
      .ok [Message.assistant [.text (.str r)],
           Message.result (.str "success") (.num (sumLatency data)) false
             (.str (genId (clock 0))) 1 none
             (some (.obj [("total_tokens", .num (sumTokens data)),
                          ("tool_calls", toolCallsOf data),
                          ("models", modelsOf data)]))
             (some (.str (String.mk (r.data.take 100))))] := by
  rw [parse_single_branch raw e clock hdet]
  simp [parseSingleChars, hdec,
    parseSingleData_response clock 0 data r hwf hr hne, Except.map,
    Except.mapError]

/-- The example stdout of the specification's concrete scenario. -/
def exampleStdout : String :=
  "\x7b\"response\":\"Hello!\",\"stats\":\x7b\"models\":\x7b\"m1\":\x7b\"api\":\x7b\"totalLatencyMs\":120\x7d,\"tokens\":\x7b\"total\":42\x7d\x7d\x7d,\"tools\":\x7b\"totalCalls\":0\x7d\x7d\x7d"

/-- The decoded JSON value of `exampleStdout`. -/
def exampleData : Json :=
  .obj [("response", .str "Hello!"),
        ("stats", .obj
          [("models", .obj
            [("m1", .obj
              [("api", .obj [("totalLatencyMs", .num 120)]),
               ("tokens", .obj [("total", .num 42)])])]),
           ("tools", .obj [("totalCalls", .num 0)])])]

set_option maxRecDepth 100000 in
/-- Witness for C1 at the concrete example scenario of the spec. -/
theorem parse_singleJson_response_witness :
    (detectSingleJson (cleanOutput exampleStdout.data) = true ∧
     jsonDecode (cleanOutput exampleStdout.data) = some exampleData ∧
     wellFormedSingle exampleData = true ∧
     jGetD exampleData "response" (.str "") = .str "Hello!" ∧
     "Hello!" ≠ "") ∧
    parse exampleStdout "" (fun k => k) =
      .ok [Message.assistant [.text (.str "Hello!")],
           Message.result (.str "success") (.num 120) false (.str "gemini-0")
             1 none
             (some (.obj [("total_tokens", .num 42),
                          ("tool_calls", .num 0),
                          ("models", .obj [("m1", .obj
                            [("api", .obj [("totalLatencyMs", .num 120)]),
                             ("tokens", .obj [("total", .num 42)])])])]))
             (some (.str "Hello!"))] :=
  ⟨⟨rfl, rfl, rfl, rfl, by decide⟩,
   parse_singleJson_response exampleStdout "" (fun k => k) exampleData
     "Hello!" rfl rfl rfl rfl (by decide)⟩

end GeminiSdk

namespace GeminiSdk

/-- A successful Python `get` on a value returns the total lookup. -/
theorem pyGetD_ok_eq (j : Json) (k : String) (d v : Json)
    (h : pyGetD j k d = .ok v) : v = jGetD j k d := by
  cases j <;> simp_all [pyGetD, jGetD]

/-- C6: for every successfully decoded single-JSON payload, the
emitted ResultMessage's total_cost_usd is absent, and its result field
is the first 100 characters of the response text when the response is
a non-empty string and absent when the response is empty. -/
theorem parseSingleData_result_fields (clock : Nat → Nat) (ctr : Nat)
    (data : Json) (msgs : List Message) (ctr2 : Nat)
    (h : parseSingleData clock ctr data = .ok (msgs, ctr2)) :
    ∃ dur usage res,
      msgs.getLast? = some (.result (.str "success") dur false
        (.str (genId (clock ctr))) 1 none usage res) ∧
      ∀ r : String, jGetD data "response" (.str "") = .str r →
        res = if r = "" then none
              else some (.str (String.mk (r.data.take 100))) := by
  unfold parseSingleData at h
  cases hresp : pyGetD data "response" (.str "") with
  | error f =>
    simp only [hresp, exBind_error] at h
    exact Except.noConfusion h
  | ok responseText =>
  simp only [hresp, exBind_ok] at h
  cases hstats : pyGetD data "stats" (.obj []) with
  | error f =>
    simp only [hstats, exBind_error] at h
    exact Except.noConfusion h
  | ok stats =>
  simp only [hstats, exBind_ok] at h
  cases hmodels : pyGetD stats "models" (.obj []) with
  | error f =>
    simp only [hmodels, exBind_error] at h
    exact Except.noConfusion h
  | ok modelsStats =>
  simp only [hmodels, exBind_ok] at h
  cases hitems : pyItems modelsStats with
  | error f =>
    simp only [hitems, exBind_error] at h
    exact Except.noConfusion h
  | ok items =>
  simp only [hitems, exBind_ok] at h
  cases hfold : statsFold items 0 0 with
  | error f =>
    simp only [hfold, exBind_error] at h
    exact Except.noConfusion h
  | ok durTok =>
  simp only [hfold, exBind_ok] at h
  cases htools : pyGetD stats "tools" (.obj []) with
  | error f =>
    simp only [htools, exBind_error] at h
    exact Except.noConfusion h
  | ok toolStats =>
  simp only [htools, exBind_ok] at h
  cases hcalls : pyGetD toolStats "totalCalls" (.num 0) with
  | error f =>
    simp only [hcalls, exBind_error] at h
    exact Except.noConfusion h
  | ok toolCalls =>
  simp only [hcalls, exBind_ok] at h
  by_cases htr : jTruthy responseText = true
  · simp only [htr, if_true] at h
    cases hsl : pySlice100 responseText with
    | error f =>
    simp only [hsl, exBind_error] at h
    exact Except.noConfusion h
    | ok sliced =>
    simp only [hsl, exBind_ok, pure, Except.pure, Except.ok.injEq,
      Prod.mk.injEq] at h
    obtain ⟨hm, _⟩ := h
    subst hm
    refine ⟨.num durTok.1,
      some (.obj [("total_tokens", .num durTok.2), ("tool_calls", toolCalls),
                  ("models", modelsStats)]), some sliced, by simp, ?_⟩
    intro r hjr
    have hrt : responseText = .str r := by
      rw [pyGetD_ok_eq data "response" (.str "") responseText hresp, hjr]
    subst hrt
    have hrne : r ≠ "" := by
      simpa [jTruthy] using htr
    simp only [pySlice100, Except.ok.injEq] at hsl
    simp [hrne, ← hsl]
  · simp only [htr, if_false, Bool.false_eq_true] at h
    simp only [pure, Except.pure, exBind_ok, Except.ok.injEq,
      Prod.mk.injEq] at h
    obtain ⟨hm, _⟩ := h
    subst hm
    refine ⟨.num durTok.1,
      some (.obj [("total_tokens", .num durTok.2), ("tool_calls", toolCalls),
                  ("models", modelsStats)]), none, by simp [htr], ?_⟩
    intro r hjr
    have hrt : responseText = .str r := by
      rw [pyGetD_ok_eq data "response" (.str "") responseText hresp, hjr]
    subst hrt
    have hre : r = "" := by
      by_contra hne
      exact htr (by simpa [jTruthy] using hne)
    simp [hre]

/-- Witness for C6: the concrete example payload; its ResultMessage
carries no cost and the full (short) response as result. -/
theorem parseSingleData_result_fields_witness :
    (parseSingleData (fun k => k) 0 exampleData =
      .ok ([Message.assistant [.text (.str "Hello!")],
            Message.result (.str "success") (.num 120) false
              (.str "gemini-0") 1 none
              (some (.obj [("total_tokens", .num 42),
                           ("tool_calls", .num 0),
                           ("models", .obj [("m1", .obj
                             [("api", .obj [("totalLatencyMs", .num 120)]),
                              ("tokens", .obj [("total", .num 42)])])])]))
              (some (.str "Hello!"))], 1)) ∧
    ∃ dur usage res,
      [Message.assistant [.text (.str "Hello!")],
       Message.result (.str "success") (.num 120) false
         (.str "gemini-0") 1 none
         (some (.obj [("total_tokens", .num 42),
                      ("tool_calls", .num 0),
                      ("models", .obj [("m1", .obj
                        [("api", .obj [("totalLatencyMs", .num 120)]),
                         ("tokens", .obj [("total", .num 42)])])])]))
         (some (.str "Hello!"))].getLast? =
        some (.result (.str "success") dur false (.str (genId 0)) 1 none
          usage res) ∧
      ∀ r : String, jGetD exampleData "response" (.str "") = .str r →
        res = if r = "" then none
              else some (.str (String.mk (r.data.take 100))) :=
  ⟨rfl, parseSingleData_result_fields (fun k => k) 0 exampleData _ 1 rfl⟩

end GeminiSdk

namespace GeminiSdk

/-- The stream line loop over a concatenation runs the two parts in
sequence, threading the state and appending the messages. -/
theorem streamLoop_append (clock : Nat → Nat) (A B : List (List Char)) :
    ∀ st, streamLoop clock st (A ++ B) =
      (streamLoop clock st A) >>= (fun p =>
        (streamLoop clock p.2 B) >>= (fun q =>
          .ok (p.1 ++ q.1, q.2))) := by
  induction A with
  | nil =>
    intro st
    simp only [List.nil_append, streamLoop, exBind_ok]
    cases h : streamLoop clock st B with
    | error f => rfl
    | ok q => simp [exBind_ok]
  | cons l A ih =>
    intro st
    simp only [List.cons_append, streamLoop]
    cases hstep : streamStep clock st l with
    | error f => simp [exBind_error]
    | ok p =>
      simp only [exBind_ok, List.append_eq]
      rw [ih p.2]
      cases hA : streamLoop clock p.2 A with
      | error f => simp [exBind_error]
      | ok q =>
        simp only [exBind_ok]
        cases hB : streamLoop clock q.2 B with
        | error f => simp [exBind_error]
        | ok w => simp [exBind_ok]

/-- C8: a stream line of type "message" with role "user" emits one
UserMessage carrying the content string (also when empty); with role
"assistant" it emits one AssistantMessage with one TextBlock exactly
when the content string is non-empty, irrespective of any delta flag,
and the state is unchanged either way. -/
theorem streamDispatch_message (clock : Nat → Nat) (st : StreamState)
    (fields : List (String × Json)) (c : String)
    (htype : fieldD fields "type" .null = .str "message")
    (hcontent : fieldD fields "content" (.str "") = .str c) :
    (fieldD fields "role" .null = .str "user" →
      streamDispatch clock st fields = .ok ([Message.user (.str c)], st)) ∧
    (fieldD fields "role" .null = .str "assistant" →
      streamDispatch clock st fields =
        .ok ((if c = "" then []
              else [Message.assistant [.text (.str c)]]), st)) := by
  constructor
  · intro hrole
    simp [streamDispatch, htype, hcontent, hrole]
  · intro hrole
    by_cases hc : c = ""
    · subst hc
      simp [streamDispatch, htype, hcontent, hrole, jTruthy]
    · simp [streamDispatch, htype, hcontent, hrole, jTruthy, hc]

/-- A concrete "message"-typed stream line payload carrying a delta
flag. -/
def wMsgFields : List (String × Json) :=
  [("type", .str "message"), ("role", .str "user"),
   ("content", .str "hi"), ("delta", .bool true)]

/-- Witness for C8 at a concrete user message line with a delta flag. -/
theorem streamDispatch_message_witness :
    (fieldD wMsgFields "type" .null = .str "message" ∧
     fieldD wMsgFields "content" (.str "") = .str "hi" ∧
     fieldD wMsgFields "role" .null = .str "user") ∧
    streamDispatch (fun k => k) ⟨none, 0⟩ wMsgFields =
      .ok ([Message.user (.str "hi")], ⟨none, 0⟩) :=
  ⟨⟨rfl, rfl, rfl⟩,
   (streamDispatch_message (fun k => k) ⟨none, 0⟩ wMsgFields "hi"
     rfl rfl).1 rfl⟩

end GeminiSdk

namespace GeminiSdk

/-- A stream line that the loop dispatches as an "init" event. -/
def lineIsInit (line : List Char) : Bool :=
  let l := pyStrip line
  if l.isEmpty || !startsWithBrace l then false
  else
    match jsonDecode l with
    | some (.obj fields) =>
      match fieldD fields "type" .null with
      | .str "init" => true
      | _ => false
    | _ => false

/-- A stream line that either emits nothing or is an "init" event
(blank, non-`{`, undecodable, or init-typed). -/
def lineInitish (line : List Char) : Bool :=
  let l := pyStrip line
  if l.isEmpty || !startsWithBrace l then true
  else
    match jsonDecode l with
    | some (.obj fields) =>
      match fieldD fields "type" .null with
      | .str "init" => true
      | .str "message" => false
      | .str "result" => false
      | .str "error" => false
      | _ => true
    | _ => true

/-- Dispatching a non-init event while the captured session id is
truthy leaves the state unchanged and stamps that session id on every
emitted ResultMessage. -/
theorem streamDispatch_keeps_sid (clock : Nat → Nat) (st : StreamState)
    (fields : List (String × Json)) (s : Json) (ms : List Message)
    (st2 : StreamState) (hsid : st.sid = some s) (htr : jTruthy s = true)
    (hni : fieldD fields "type" .null ≠ .str "init")
    (hd : streamDispatch clock st fields = .ok (ms, st2)) :
    st2 = st ∧ ∀ m ∈ ms, isResultB m = true → sessionIdOf m = some s := by
  have htruthy : sidTruthy st.sid = true := by
    rw [hsid]; exact htr
  unfold streamDispatch at hd
  split at hd
  · rename_i heq
    exact absurd heq hni
  · rename_i heq
    dsimp only at hd
    split at hd
    · simp only [Except.ok.injEq, Prod.mk.injEq] at hd
      obtain ⟨hm, hst⟩ := hd
      subst hst
      subst hm
      refine ⟨rfl, ?_⟩
      intro m hmem hr
      rcases List.mem_singleton.mp hmem with rfl
      simp [isResultB] at hr
    · simp only [Except.ok.injEq, Prod.mk.injEq] at hd
      obtain ⟨hm, hst⟩ := hd
      subst hst
      subst hm
      refine ⟨rfl, ?_⟩
      intro m hmem hr
      revert hmem
      split <;> intro hmem <;> simp_all [isResultB]
    · simp only [Except.ok.injEq, Prod.mk.injEq] at hd
      obtain ⟨hm, hst⟩ := hd
      subst hst
      subst hm
      exact ⟨rfl, by simp⟩
  · rename_i heq
    dsimp only at hd
    cases hdur : pyGetD (fieldD fields "stats" (.obj [])) "duration_ms" (.num 0) with
    | error f =>
      rw [hdur] at hd
      simp only [exBind_error] at hd
      exact Except.noConfusion hd
    | ok dur =>
    rw [hdur] at hd
    simp only [exBind_ok, htruthy, if_true] at hd
    cases htot : pyGetD (fieldD fields "stats" (.obj [])) "total_tokens" (.num 0) with
    | error f =>
      simp only [htot, exBind_error] at hd
      exact Except.noConfusion hd
    | ok tot =>
    cases hinp : pyGetD (fieldD fields "stats" (.obj [])) "input_tokens" (.num 0) with
    | error f =>
      simp only [htot, hinp, exBind_ok, exBind_error] at hd
      exact Except.noConfusion hd
    | ok inp =>
    cases hout : pyGetD (fieldD fields "stats" (.obj [])) "output_tokens" (.num 0) with
    | error f =>
      simp only [htot, hinp, hout, exBind_ok, exBind_error] at hd
      exact Except.noConfusion hd
    | ok out =>
    cases hcal : pyGetD (fieldD fields "stats" (.obj [])) "tool_calls" (.num 0) with
    | error f =>
      simp only [htot, hinp, hout, hcal, exBind_ok, exBind_error] at hd
      exact Except.noConfusion hd
    | ok cal =>
    simp only [htot, hinp, hout, hcal, exBind_ok, Except.ok.injEq,
      Prod.mk.injEq] at hd
    obtain ⟨hm, hst⟩ := hd
    subst hst
    subst hm
    constructor
    · cases st
      rfl
    · intro m hmem hr
      rcases List.mem_singleton.mp hmem with rfl
      simp [sessionIdOf, hsid]
  · rename_i heq
    dsimp only at hd
    simp only [htruthy, if_true, Except.ok.injEq, Prod.mk.injEq] at hd
    obtain ⟨hm, hst⟩ := hd
    subst hst
    subst hm
    constructor
    · cases st
      rfl
    · intro m hmem hr
      rcases List.mem_singleton.mp hmem with rfl
      simp [sessionIdOf, hsid]
  · simp only [Except.ok.injEq, Prod.mk.injEq] at hd
    obtain ⟨hm, hst⟩ := hd
    subst hst
    subst hm
    exact ⟨rfl, by simp⟩

end GeminiSdk

namespace GeminiSdk

/-- One loop iteration on a non-init line while the captured session
id is truthy: state unchanged, every emitted ResultMessage carries
that id. -/
theorem streamStep_keeps_sid (clock : Nat → Nat) (st : StreamState)
    (line : List Char) (s : Json) (ms : List Message) (st2 : StreamState)
    (hsid : st.sid = some s) (htr : jTruthy s = true)
    (hni : lineIsInit line = false)
    (hstep : streamStep clock st line = .ok (ms, st2)) :
    st2 = st ∧ ∀ m ∈ ms, isResultB m = true → sessionIdOf m = some s := by
  unfold streamStep at hstep
  dsimp only at hstep
  by_cases hskip :
      ((pyStrip line).isEmpty || !startsWithBrace (pyStrip line)) = true
  · rw [if_pos hskip] at hstep
    simp only [Except.ok.injEq, Prod.mk.injEq] at hstep
    obtain ⟨hm, hst⟩ := hstep
    subst hst
    subst hm
    exact ⟨rfl, by simp⟩
  · rw [if_neg hskip] at hstep
    cases hdec : jsonDecode (pyStrip line) with
    | none =>
      rw [hdec] at hstep
      simp only [Except.ok.injEq, Prod.mk.injEq] at hstep
      obtain ⟨hm, hst⟩ := hstep
      subst hst
      subst hm
      exact ⟨rfl, by simp⟩
    | some j =>
      rw [hdec] at hstep
      cases j with
      | obj fields =>
        have hni2 : fieldD fields "type" .null ≠ .str "init" := by
          intro heq
          unfold lineIsInit at hni
          rw [if_neg hskip, hdec] at hni
          simp [heq] at hni
        exact streamDispatch_keeps_sid clock st fields s ms st2 hsid htr
          hni2 hstep
      | null =>
        simp only [Except.ok.injEq, Prod.mk.injEq] at hstep
        obtain ⟨hm, hst⟩ := hstep
        subst hst; subst hm
        exact ⟨rfl, by simp⟩
      | bool b =>
        simp only [Except.ok.injEq, Prod.mk.injEq] at hstep
        obtain ⟨hm, hst⟩ := hstep
        subst hst; subst hm
        exact ⟨rfl, by simp⟩
      | num n =>
        simp only [Except.ok.injEq, Prod.mk.injEq] at hstep
        obtain ⟨hm, hst⟩ := hstep
        subst hst; subst hm
        exact ⟨rfl, by simp⟩
      | str s2 =>
        simp only [Except.ok.injEq, Prod.mk.injEq] at hstep
        obtain ⟨hm, hst⟩ := hstep
        subst hst; subst hm
        exact ⟨rfl, by simp⟩
      | arr l =>
        simp only [Except.ok.injEq, Prod.mk.injEq] at hstep
        obtain ⟨hm, hst⟩ := hstep
        subst hst; subst hm
        exact ⟨rfl, by simp⟩

/-- Running the loop over init-free lines while the captured session
id is truthy: state unchanged, every emitted ResultMessage carries
that id. -/
theorem streamLoop_keeps_sid (clock : Nat → Nat) (s : Json)
    (htr : jTruthy s = true) :
    ∀ (lines : List (List Char)) (st : StreamState) (ms : List Message)
      (st2 : StreamState), st.sid = some s →
      (∀ l ∈ lines, lineIsInit l = false) →
      streamLoop clock st lines = .ok (ms, st2) →
      st2 = st ∧ ∀ m ∈ ms, isResultB m = true → sessionIdOf m = some s := by
  intro lines
  induction lines with
  | nil =>
    intro st ms st2 hsid _ hloop
    unfold streamLoop at hloop
    simp only [Except.ok.injEq, Prod.mk.injEq] at hloop
    obtain ⟨hm, hst⟩ := hloop
    subst hst
    subst hm
    exact ⟨rfl, by simp⟩
  | cons l rest ih =>
    intro st ms st2 hsid hni hloop
    unfold streamLoop at hloop
    cases hstep : streamStep clock st l with
    | error f =>
      simp only [hstep, exBind_error] at hloop
      exact Except.noConfusion hloop
    | ok p =>
      simp only [hstep, exBind_ok] at hloop
      cases hrest : streamLoop clock p.2 rest with
      | error f =>
        simp only [hrest, exBind_error] at hloop
        exact Except.noConfusion hloop
      | ok q =>
        simp only [hrest, exBind_ok, Except.ok.injEq, Prod.mk.injEq] at hloop
        obtain ⟨hm, hst⟩ := hloop
        obtain ⟨hp2, hpm⟩ := streamStep_keeps_sid clock st l s p.1 p.2 hsid
          htr (hni l (List.mem_cons_self _ _)) hstep
        obtain ⟨hq2, hqm⟩ := ih p.2 q.1 q.2 (by rw [hp2, hsid])
          (fun x hx => hni x (List.mem_cons_of_mem _ hx)) hrest
        constructor
        · rw [← hst, hq2, hp2]
        · intro m hmem hr
          rw [← hm] at hmem
          rcases List.mem_append.mp hmem with hmem | hmem
          · exact hpm m hmem hr
          · exact hqm m hmem hr

/-- C3 (amended): once the loop state carries the truthy session id
captured by the most recent init line, every ResultMessage emitted for
later result/error lines (with no intervening init line) carries
exactly that id.  When the captured id is falsy — or no init line was
seen — the source synthesizes a fresh id per result/error line
instead, so those need not coincide. -/
theorem streamLoop_sessionId_from_init (clock : Nat → Nat)
    (l1 l2 : List (List Char)) (st0 st1 st2 : StreamState)
    (ms1 ms2 : List Message) (s : Json)
    (h1 : streamLoop clock st0 l1 = .ok (ms1, st1))
    (hsid : st1.sid = some s) (htr : jTruthy s = true)
    (hni : ∀ l ∈ l2, lineIsInit l = false)
    (h2 : streamLoop clock st1 l2 = .ok (ms2, st2)) :
    ∀ m ∈ ms2, isResultB m = true → sessionIdOf m = some s :=
  (streamLoop_keeps_sid clock s htr l2 st1 ms2 st2 hsid hni h2).2

end GeminiSdk

namespace GeminiSdk

set_option maxRecDepth 100000 in
/-- Counterexample to C3 as stated: a stream payload whose init line
carries the (falsy) session id `""` is followed by an error line whose
ResultMessage carries a freshly synthesized id `"gemini-1"`, not the
captured id `""`. -/
theorem c3_counterexample_sessionId :
    parse "\x7b\"type\":\"init\",\"session_id\":\"\"\x7d\n\x7b\"type\":\"error\"\x7d" ""
        (fun k => k) =
      .ok [Message.system (.str "init")
             [("session_id", .str ""), ("model", .null), ("timestamp", .null)],
           Message.result (.str "error") (.num 0) true (.str "gemini-1") 0
             none none (some (.str "Unknown error"))] ∧
    ("gemini-1" : String) ≠ "" :=
  ⟨rfl, by decide⟩

/-- The init line of the C3 witness scenario. -/
def wInitLine : List Char := "\x7b\"type\":\"init\",\"session_id\":\"abc\"\x7d".data

/-- The result line of the C3 witness scenario. -/
def wResultLine : List Char := "\x7b\"type\":\"result\"\x7d".data

/-- The error line of the C3 witness scenario. -/
def wErrorLine : List Char := "\x7b\"type\":\"error\"\x7d".data

set_option maxRecDepth 100000 in
/-- Witness for the amended C3: after an init line capturing session
id "abc", a result line's ResultMessage carries session id "abc". -/
theorem streamLoop_sessionId_from_init_witness :
    jTruthy (.str "abc") = true ∧
    sessionIdOf (Message.result (.str "success") (.num 0) false
        (.str "abc") 1 none
        (some (.obj [("total_tokens", .num 0), ("input_tokens", .num 0),
                     ("output_tokens", .num 0), ("tool_calls", .num 0)]))
        none) = some (.str "abc") :=
  ⟨rfl,
   streamLoop_sessionId_from_init (fun k => k) [wInitLine]
     [wResultLine, wErrorLine] ⟨none, 0⟩ ⟨some (.str "abc"), 1⟩
     ⟨some (.str "abc"), 1⟩
     [Message.system (.str "init")
        [("session_id", .str "abc"), ("model", .null), ("timestamp", .null)]]
     [Message.result (.str "success") (.num 0) false (.str "abc") 1 none
        (some (.obj [("total_tokens", .num 0), ("input_tokens", .num 0),
                     ("output_tokens", .num 0), ("tool_calls", .num 0)]))
        none,
      Message.result (.str "error") (.num 0) true (.str "abc") 0 none none
        (some (.str "Unknown error"))]
     (.str "abc") rfl rfl rfl (by decide) rfl _ (by simp) rfl⟩

end GeminiSdk

namespace GeminiSdk

/-- Inverting a successful bind on `Except`. -/
theorem exBind_ok_shape {e a b : Type} (x : Except e a) (f : a → Except e b)
    (v : b) (h : (x >>= f) = .ok v) : ∃ w, x = .ok w ∧ f w = .ok v := by
  cases x with
  | error g =>
    simp only [exBind_error] at h
    exact Except.noConfusion h
  | ok w => exact ⟨w, rfl, h⟩

/-- Shape of one dispatch: an init event emits one SystemMessage; a
message/result/error event emits no SystemMessage; any other event
emits nothing and keeps the state. -/
theorem streamDispatch_shape (clock : Nat → Nat) (st : StreamState)
    (fields : List (String × Json)) (ms : List Message) (st2 : StreamState)
    (hd : streamDispatch clock st fields = .ok (ms, st2)) :
    (fieldD fields "type" .null = .str "init" ∧
       ∃ d, ms = [.system (.str "init") d]) ∨
    ((fieldD fields "type" .null = .str "message" ∨
      fieldD fields "type" .null = .str "result" ∨
      fieldD fields "type" .null = .str "error") ∧
       ∀ m ∈ ms, isSystemB m = false) ∨
    (ms = [] ∧ st2 = st) := by
  unfold streamDispatch at hd
  split at hd
  · rename_i heq
    simp only [Except.ok.injEq, Prod.mk.injEq] at hd
    exact Or.inl ⟨heq, _, hd.1.symm⟩
  · rename_i heq
    refine Or.inr (Or.inl ⟨Or.inl heq, ?_⟩)
    dsimp only at hd
    split at hd <;>
      simp only [Except.ok.injEq, Prod.mk.injEq] at hd <;>
      rw [← hd.1] <;>
      intro m hmem
    · rcases List.mem_singleton.mp hmem with rfl
      rfl
    · revert hmem
      split <;> intro hmem
      · rcases List.mem_singleton.mp hmem with rfl
        rfl
      · simp at hmem
    · simp at hmem
  · rename_i heq
    refine Or.inr (Or.inl ⟨Or.inr (Or.inl heq), ?_⟩)
    dsimp only at hd
    obtain ⟨dur, hdur, hd⟩ := exBind_ok_shape _ _ _ hd
    by_cases hsid : sidTruthy st.sid = true <;>
      simp only [hsid, if_true, if_false, Bool.false_eq_true] at hd <;>
      obtain ⟨tot, htot, hd⟩ := exBind_ok_shape _ _ _ hd <;>
      obtain ⟨inp, hinp, hd⟩ := exBind_ok_shape _ _ _ hd <;>
      obtain ⟨out, hout, hd⟩ := exBind_ok_shape _ _ _ hd <;>
      obtain ⟨cal, hcal, hd⟩ := exBind_ok_shape _ _ _ hd <;>
      simp only [Except.ok.injEq, Prod.mk.injEq] at hd <;>
      rw [← hd.1] <;>
      intro m hmem <;>
      rcases List.mem_singleton.mp hmem with rfl <;>
      rfl
  · rename_i heq
    refine Or.inr (Or.inl ⟨Or.inr (Or.inr heq), ?_⟩)
    dsimp only at hd
    by_cases hsid : sidTruthy st.sid = true <;>
      simp only [hsid, if_true, if_false, Bool.false_eq_true] at hd <;>
      simp only [Except.ok.injEq, Prod.mk.injEq] at hd <;>
      rw [← hd.1] <;>
      intro m hmem <;>
      rcases List.mem_singleton.mp hmem with rfl <;>
      rfl
  · simp only [Except.ok.injEq, Prod.mk.injEq] at hd
    exact Or.inr (Or.inr ⟨hd.1.symm, hd.2.symm⟩)

/-- Decomposition of one loop iteration: either the line is skipped
with nothing emitted, or it decodes to an object that is dispatched. -/
theorem streamStep_cases (clock : Nat → Nat) (st : StreamState)
    (line : List Char) (ms : List Message) (st2 : StreamState)
    (hstep : streamStep clock st line = .ok (ms, st2)) :
    (ms = [] ∧ st2 = st) ∨
    ∃ fields, ((pyStrip line).isEmpty || !startsWithBrace (pyStrip line)) = false ∧
      jsonDecode (pyStrip line) = some (.obj fields) ∧
      streamDispatch clock st fields = .ok (ms, st2) := by
  unfold streamStep at hstep
  dsimp only at hstep
  by_cases hskip :
      ((pyStrip line).isEmpty || !startsWithBrace (pyStrip line)) = true
  · rw [if_pos hskip] at hstep
    simp only [Except.ok.injEq, Prod.mk.injEq] at hstep
    exact Or.inl ⟨hstep.1.symm, hstep.2.symm⟩
  · rw [if_neg hskip] at hstep
    cases hdec : jsonDecode (pyStrip line) with
    | none =>
      rw [hdec] at hstep
      simp only [Except.ok.injEq, Prod.mk.injEq] at hstep
      exact Or.inl ⟨hstep.1.symm, hstep.2.symm⟩
    | some j =>
      rw [hdec] at hstep
      cases j with
      | obj fields =>
        exact Or.inr ⟨fields, eq_false_of_ne_true hskip, rfl, hstep⟩
      | null =>
        simp only [Except.ok.injEq, Prod.mk.injEq] at hstep
        exact Or.inl ⟨hstep.1.symm, hstep.2.symm⟩
      | bool b =>
        simp only [Except.ok.injEq, Prod.mk.injEq] at hstep
        exact Or.inl ⟨hstep.1.symm, hstep.2.symm⟩
      | num n =>
        simp only [Except.ok.injEq, Prod.mk.injEq] at hstep
        exact Or.inl ⟨hstep.1.symm, hstep.2.symm⟩
      | str s2 =>
        simp only [Except.ok.injEq, Prod.mk.injEq] at hstep
        exact Or.inl ⟨hstep.1.symm, hstep.2.symm⟩
      | arr l =>
        simp only [Except.ok.injEq, Prod.mk.injEq] at hstep
        exact Or.inl ⟨hstep.1.symm, hstep.2.symm⟩

end GeminiSdk

namespace GeminiSdk

/-- An initish line (skipped or init-typed) emits only SystemMessages. -/
theorem streamStep_initish_system (clock : Nat → Nat) (st : StreamState)
    (line : List Char) (ms : List Message) (st2 : StreamState)
    (hin : lineInitish line = true)
    (hstep : streamStep clock st line = .ok (ms, st2)) :
    ∀ m ∈ ms, isSystemB m = true := by
  rcases streamStep_cases clock st line ms st2 hstep with ⟨hm, _⟩ | ⟨fields, hskip, hdec, hd⟩
  · subst hm
    simp
  · unfold lineInitish at hin
    rw [if_neg (by simp [hskip]), hdec] at hin
    rcases streamDispatch_shape clock st fields ms st2 hd with
      ⟨_, d, hm⟩ | ⟨htype, _⟩ | ⟨hm, _⟩
    · subst hm
      intro m hmem
      rcases List.mem_singleton.mp hmem with rfl
      rfl
    · rcases htype with heq | heq | heq <;> simp [heq] at hin
    · subst hm
      simp

/-- A line that is not an init event emits no SystemMessage. -/
theorem streamStep_nonInit_noSystem (clock : Nat → Nat) (st : StreamState)
    (line : List Char) (ms : List Message) (st2 : StreamState)
    (hni : lineIsInit line = false)
    (hstep : streamStep clock st line = .ok (ms, st2)) :
    ∀ m ∈ ms, isSystemB m = false := by
  rcases streamStep_cases clock st line ms st2 hstep with ⟨hm, _⟩ | ⟨fields, hskip, hdec, hd⟩
  · subst hm
    simp
  · rcases streamDispatch_shape clock st fields ms st2 hd with
      ⟨htype, d, hm⟩ | ⟨_, hns⟩ | ⟨hm, _⟩
    · exfalso
      unfold lineIsInit at hni
      rw [if_neg (by simp [hskip]), hdec] at hni
      simp [htype] at hni
    · exact hns
    · subst hm
      simp

/-- The loop over initish lines emits only SystemMessages. -/
theorem streamLoop_initish_system (clock : Nat → Nat) :
    ∀ (lines : List (List Char)) (st : StreamState) (ms : List Message)
      (st2 : StreamState), (∀ l ∈ lines, lineInitish l = true) →
      streamLoop clock st lines = .ok (ms, st2) →
      ∀ m ∈ ms, isSystemB m = true := by
  intro lines
  induction lines with
  | nil =>
    intro st ms st2 _ hloop
    unfold streamLoop at hloop
    simp only [Except.ok.injEq, Prod.mk.injEq] at hloop
    rw [← hloop.1]
    simp
  | cons l rest ih =>
    intro st ms st2 hin hloop
    unfold streamLoop at hloop
    obtain ⟨p, hstep, hloop⟩ := exBind_ok_shape _ _ _ hloop
    obtain ⟨q, hrest, hloop⟩ := exBind_ok_shape _ _ _ hloop
    simp only [Except.ok.injEq, Prod.mk.injEq] at hloop
    rw [← hloop.1]
    intro m hmem
    rcases List.mem_append.mp hmem with hmem | hmem
    · exact streamStep_initish_system clock st l p.1 p.2
        (hin l (List.mem_cons_self _ _)) hstep m hmem
    · exact ih p.2 q.1 q.2 (fun x hx => hin x (List.mem_cons_of_mem _ hx))
        hrest m hmem

/-- The loop over init-free lines emits no SystemMessage. -/
theorem streamLoop_noInit_noSystem (clock : Nat → Nat) :
    ∀ (lines : List (List Char)) (st : StreamState) (ms : List Message)
      (st2 : StreamState), (∀ l ∈ lines, lineIsInit l = false) →
      streamLoop clock st lines = .ok (ms, st2) →
      ∀ m ∈ ms, isSystemB m = false := by
  intro lines
  induction lines with
  | nil =>
    intro st ms st2 _ hloop
    unfold streamLoop at hloop
    simp only [Except.ok.injEq, Prod.mk.injEq] at hloop
    rw [← hloop.1]
    simp
  | cons l rest ih =>
    intro st ms st2 hni hloop
    unfold streamLoop at hloop
    obtain ⟨p, hstep, hloop⟩ := exBind_ok_shape _ _ _ hloop
    obtain ⟨q, hrest, hloop⟩ := exBind_ok_shape _ _ _ hloop
    simp only [Except.ok.injEq, Prod.mk.injEq] at hloop
    rw [← hloop.1]
    intro m hmem
    rcases List.mem_append.mp hmem with hmem | hmem
    · exact streamStep_nonInit_noSystem clock st l p.1 p.2
        (hni l (List.mem_cons_self _ _)) hstep m hmem
    · exact ih p.2 q.1 q.2 (fun x hx => hni x (List.mem_cons_of_mem _ hx))
        hrest m hmem

/-- Dropping a satisfying prefix skips it entirely. -/
theorem dropWhile_append_of_all {α : Type} (p : α → Bool) (A B : List α)
    (hA : ∀ x ∈ A, p x = true) :
    (A ++ B).dropWhile p = B.dropWhile p := by
  induction A with
  | nil => rfl
  | cons a A ih =>
    rw [List.cons_append, List.dropWhile_cons_of_pos
      (hA a (List.mem_cons_self _ _))]
    exact ih (fun x hx => hA x (List.mem_cons_of_mem _ hx))

/-- A sequence of SystemMessages followed by non-System messages
satisfies the systems-first ordering. -/
theorem systemsFirst_append (A B : List Message)
    (hA : ∀ m ∈ A, isSystemB m = true) (hB : ∀ m ∈ B, isSystemB m = false) :
    systemsFirst (A ++ B) = true := by
  unfold systemsFirst
  rw [dropWhile_append_of_all _ A B hA]
  cases B with
  | nil => rfl
  | cons b bs =>
    rw [List.dropWhile_cons_of_neg (by simp [hB b (List.mem_cons_self _ _)])]
    rw [List.all_eq_true]
    intro m hmem
    simp [hB m hmem]

/-- C7 (amended): the stream loop emits messages in line order, so
when every init line of the payload precedes every content-bearing
line, any SystemMessage in the output precedes every non-System
message.  (In general an init line occurring after content lines puts
its SystemMessage after their messages.) -/
theorem streamLoop_systemsFirst (clock : Nat → Nat)
    (l1 l2 : List (List Char)) (st : StreamState) (ms : List Message)
    (st2 : StreamState)
    (h1 : ∀ l ∈ l1, lineInitish l = true)
    (h2 : ∀ l ∈ l2, lineIsInit l = false)
    (hloop : streamLoop clock st (l1 ++ l2) = .ok (ms, st2)) :
    systemsFirst ms = true := by
  rw [streamLoop_append clock l1 l2 st] at hloop
  obtain ⟨p, hA, hloop⟩ := exBind_ok_shape _ _ _ hloop
  obtain ⟨q, hB, hloop⟩ := exBind_ok_shape _ _ _ hloop
  simp only [Except.ok.injEq, Prod.mk.injEq] at hloop
  rw [← hloop.1]
  exact systemsFirst_append p.1 q.1
    (streamLoop_initish_system clock l1 st p.1 p.2 h1 hA)
    (streamLoop_noInit_noSystem clock l2 p.2 q.1 q.2 h2 hB)

set_option maxRecDepth 100000 in
/-- Counterexample to C7 as stated: an init line after a message line
yields a SystemMessage ordered after a non-System message. -/
theorem c7_counterexample_systemOrder :
    parse "\x7b\"type\":\"message\",\"role\":\"user\",\"content\":\"hi\"\x7d\n\x7b\"type\":\"init\",\"session_id\":\"s\"\x7d"
        "" (fun k => k) =
      .ok [Message.user (.str "hi"),
           Message.system (.str "init")
             [("session_id", .str "s"), ("model", .null),
              ("timestamp", .null)]] ∧
    systemsFirst
      [Message.user (.str "hi"),
       Message.system (.str "init")
         [("session_id", .str "s"), ("model", .null),
          ("timestamp", .null)]] = false :=
  ⟨rfl, rfl⟩

set_option maxRecDepth 100000 in
/-- Witness for the amended C7: an init line followed by a message
line produces a systems-first sequence. -/
theorem streamLoop_systemsFirst_witness :
    streamLoop (fun k => k) ⟨none, 0⟩
        (["\x7b\"type\":\"init\",\"session_id\":\"abc\"\x7d".data] ++
         ["\x7b\"type\":\"message\",\"role\":\"user\",\"content\":\"hi\"\x7d".data]) =
      .ok ([Message.system (.str "init")
              [("session_id", .str "abc"), ("model", .null),
               ("timestamp", .null)],
            Message.user (.str "hi")], ⟨some (.str "abc"), 1⟩) ∧
    systemsFirst
      [Message.system (.str "init")
         [("session_id", .str "abc"), ("model", .null), ("timestamp", .null)],
       Message.user (.str "hi")] = true :=
  ⟨rfl,
   streamLoop_systemsFirst (fun k => k)
     ["\x7b\"type\":\"init\",\"session_id\":\"abc\"\x7d".data]
     ["\x7b\"type\":\"message\",\"role\":\"user\",\"content\":\"hi\"\x7d".data]
     ⟨none, 0⟩ _ ⟨some (.str "abc"), 1⟩ (by decide) (by decide) rfl⟩

end GeminiSdk

namespace GeminiSdk

/-- True on a successful `Except` outcome. -/
def isOkE {e a : Type} : Except e a → Bool
  | .ok _ => true
  | .error _ => false

/-- A stream line whose dispatch cannot fault: any skipped or
undecodable line, and any decoded line that is not result-typed or
whose `stats` field is a dict (possibly defaulted). -/
def lineStatsOk (line : List Char) : Bool :=
  let l := pyStrip line
  if l.isEmpty || !startsWithBrace l then true
  else
    match jsonDecode l with
    | some (.obj fields) =>
      match fieldD fields "type" .null with
      | .str "result" => isObjB (fieldD fields "stats" (.obj []))
      | _ => true
    | _ => true

/-- A successful `Except` outcome holds a value. -/
theorem exists_ok_of_isOkE {e a : Type} (x : Except e a)
    (h : isOkE x = true) : ∃ v, x = .ok v := by
  cases x with
  | error g => simp [isOkE] at h
  | ok v => exact ⟨v, rfl⟩

/-- One loop iteration on a line with a safe stats shape succeeds. -/
theorem streamStep_ok_of_statsOk (clock : Nat → Nat) (st : StreamState)
    (line : List Char) (hok : lineStatsOk line = true) :
    isOkE (streamStep clock st line) = true := by
  unfold streamStep
  dsimp only
  by_cases hskip :
      ((pyStrip line).isEmpty || !startsWithBrace (pyStrip line)) = true
  · rw [if_pos hskip]
    rfl
  · rw [if_neg hskip]
    cases hdec : jsonDecode (pyStrip line) with
    | none => rfl
    | some j =>
      cases j with
      | obj fields =>
        unfold lineStatsOk at hok
        rw [if_neg hskip, hdec] at hok
        simp only at hok
        dsimp only
        unfold streamDispatch
        split
        · rfl
        · dsimp only
          split <;> rfl
        · rename_i heq
          rw [heq] at hok
          simp only at hok
          dsimp only
          simp only [pyGetD_of_obj _ _ _ hok, exBind_ok]
          by_cases hsid : sidTruthy st.sid = true <;>
            simp only [hsid, if_true, if_false, Bool.false_eq_true] <;>
            rfl
        · dsimp only
          by_cases hsid : sidTruthy st.sid = true <;>
            simp only [hsid, if_true, if_false, Bool.false_eq_true] <;>
            rfl
        · rfl
      | null => rfl
      | bool b => rfl
      | num n => rfl
      | str s2 => rfl
      | arr l2 => rfl

/-- The loop over lines with safe stats shapes succeeds. -/
theorem streamLoop_ok_of_statsOk (clock : Nat → Nat) :
    ∀ (lines : List (List Char)) (st : StreamState),
      (∀ l ∈ lines, lineStatsOk l = true) →
      ∃ p, streamLoop clock st lines = .ok p := by
  intro lines
  induction lines with
  | nil => exact fun st _ => ⟨_, rfl⟩
  | cons l rest ih =>
    intro st hok
    obtain ⟨p, hp⟩ := exists_ok_of_isOkE _
      (streamStep_ok_of_statsOk clock st l (hok l (List.mem_cons_self _ _)))
    obtain ⟨q, hq⟩ := ih p.2 (fun x hx => hok x (List.mem_cons_of_mem _ hx))
    refine ⟨(p.1 ++ q.1, q.2), ?_⟩
    unfold streamLoop
    rw [hp]
    simp only [exBind_ok]
    rw [hq]
    simp only [exBind_ok]

/-- C10 (amended): for every input classified as stream-JSON whose
decodable result-typed lines carry dict-shaped (or absent) stats,
`parse` returns normally.  (As stated the claim fails: a result line
with a non-dict stats raises through the stream branch too.) -/
theorem parse_stream_ok (raw e : String) (clock : Nat → Nat)
    (hdet : detectSingleJson (cleanOutput raw.data) = false)
    (hstats : ∀ l ∈ splitLines (pyStrip (cleanOutput raw.data)),
      lineStatsOk l = true) :
    isOkE (parse raw e clock) = true := by
  unfold parse
  by_cases h0 : (raw.data.isEmpty || (pyStrip raw.data).isEmpty) = true
  · rw [if_pos h0]
    rfl
  · rw [if_neg h0]
    by_cases hc : (cleanOutput raw.data).isEmpty = true
    · rw [if_pos hc]
      rfl
    · rw [if_neg hc, if_neg (by rw [hdet]; exact Bool.false_ne_true)]
      obtain ⟨p, hp⟩ := streamLoop_ok_of_statsOk clock
        (splitLines (pyStrip (cleanOutput raw.data))) ⟨none, 0⟩ hstats
      unfold parseStreamChars
      rw [hp]
      rfl

set_option maxRecDepth 100000 in
/-- Counterexample to C10 as stated: a stream-classified payload with
a result line carrying `stats: 5` raises ParsingError (wrapping the
AttributeError from `stats.get` on a non-dict) out of the stream
branch. -/
theorem c10_counterexample_streamRaises :
    detectSingleJson (cleanOutput
      "\x7b\"type\":\"init\"\x7d\n\x7b\"type\":\"result\",\"stats\":5\x7d".data) = false ∧
    parse "\x7b\"type\":\"init\"\x7d\n\x7b\"type\":\"result\",\"stats\":5\x7d" ""
        (fun k => k) =
      .error (.parsingError .attributeError) :=
  ⟨rfl, rfl⟩

set_option maxRecDepth 100000 in
/-- Witness for the amended C10 at a concrete two-line stream payload
with absent stats. -/
theorem parse_stream_ok_witness :
    (detectSingleJson (cleanOutput
       "\x7b\"type\":\"init\"\x7d\n\x7b\"type\":\"result\"\x7d".data) = false) ∧
    isOkE (parse "\x7b\"type\":\"init\"\x7d\n\x7b\"type\":\"result\"\x7d" ""
      (fun k => k)) = true :=
  ⟨rfl, parse_stream_ok "\x7b\"type\":\"init\"\x7d\n\x7b\"type\":\"result\"\x7d" ""
    (fun k => k) rfl (by decide)⟩

end GeminiSdk

namespace GeminiSdk

/-- C4: `process_query` attempts `disconnect` on every exit path, and
whenever a fault propagates (connect, execute or parse), the yielded
sequence ends with exactly one ResultMessage — the synthetic
error_during_execution message carrying duration_ms=0, num_turns=0,
session_id="error" and the stringified fault — emitted before the
fault reaches the caller. -/
theorem processQuery_fault_contract (t : TransportBehavior)
    (prompt : String) (opts : GeminiOptions) (envModel : Option String)
    (cwdDefault : String) (clock : Nat → Nat) :
    (processQuery t prompt opts envModel cwdDefault clock).disconnected =
      true ∧
    ∀ f, (processQuery t prompt opts envModel cwdDefault clock).fault =
        some f →
      (processQuery t prompt opts envModel cwdDefault clock).msgs.getLast? =
        some (clientErrorResult f) ∧
      (processQuery t prompt opts envModel cwdDefault clock).msgs.countP
        isResultB = 1 := by
  unfold processQuery
  cases t.connectR with
  | error f0 =>
    dsimp only
    refine ⟨rfl, ?_⟩
    intro f hf
    simp only [Option.some.injEq] at hf
    subst hf
    exact ⟨rfl, by simp [List.countP_cons, clientErrorResult, isResultB]⟩
  | ok u =>
    cases u
    dsimp only
    cases t.executeR with
    | error f0 =>
      dsimp only
      refine ⟨rfl, ?_⟩
      intro f hf
      simp only [Option.some.injEq] at hf
      subst hf
      refine ⟨rfl, ?_⟩
      simp [List.countP_cons, clientErrorResult, isResultB,
        initSystemMessage]
    | ok out =>
      cases out with
      | mk stdout stderr2 =>
        dsimp only
        cases hp : parse stdout stderr2 clock with
        | error e =>
          dsimp only
          refine ⟨rfl, ?_⟩
          intro f hf
          simp only [Option.some.injEq] at hf
          subst hf
          refine ⟨rfl, ?_⟩
          simp [List.countP_cons, clientErrorResult, isResultB,
            initSystemMessage]
        | ok ms =>
          dsimp only
          refine ⟨rfl, ?_⟩
          intro f hf
          exact Option.noConfusion hf

/-- A transport whose execute raises. -/
def wTransport : TransportBehavior :=
  ⟨.ok (), .error (.transportFault "boom")⟩

/-- A minimal configuration for the C4 witness. -/
def wOptions : GeminiOptions := ⟨none, none, false, false⟩

/-- Witness for C4: a transport raising on execute yields the init and
user-echo messages and then exactly one error ResultMessage, the fault
propagates, and disconnect runs. -/
theorem processQuery_fault_contract_witness :
    (processQuery wTransport "hi" wOptions none "/w" (fun k => k)).fault =
      some (.transportFault "boom") ∧
    ((processQuery wTransport "hi" wOptions none "/w"
        (fun k => k)).disconnected = true ∧
     (processQuery wTransport "hi" wOptions none "/w"
        (fun k => k)).msgs.getLast? =
       some (clientErrorResult (.transportFault "boom")) ∧
     (processQuery wTransport "hi" wOptions none "/w"
        (fun k => k)).msgs.countP isResultB = 1) :=
  ⟨rfl,
   (processQuery_fault_contract wTransport "hi" wOptions none "/w"
      (fun k => k)).1,
   ((processQuery_fault_contract wTransport "hi" wOptions none "/w"
      (fun k => k)).2 _ rfl).1,
   ((processQuery_fault_contract wTransport "hi" wOptions none "/w"
      (fun k => k)).2 _ rfl).2⟩

end GeminiSdk

namespace GeminiSdk

/-- Shape of a well-delimited stream event line as emitted by the CLI:
it begins with `{`, neither begins nor ends with whitespace, and spans
one line (no embedded newline). -/
def streamLineShape (l : List Char) : Bool :=
  startsWithBrace l && !pyWs (l.getLastD '{') &&
    !(l.any (fun ch => ch == '\n'))

/-- One-step equation of `splitLines`. -/
theorem splitLines_cons (c : Char) (w : List Char) :
    splitLines (c :: w) =
      match splitLines w with
      | [] => []
      | l :: ls => if c == '\n' then [] :: l :: ls else (c :: l) :: ls := rfl

/-- A brace-headed line survives a left whitespace strip. -/
theorem dropWhile_brace (l : List Char) (h : startsWithBrace l = true) :
    List.dropWhile pyWs l = l := by
  unfold startsWithBrace at h
  split at h
  · exact List.dropWhile_cons_of_neg (by decide)
  · exact absurd h (by simp)

/-- A fixed point of `dropWhile` has a head violating the predicate. -/
theorem dropWhile_fixed_head {p : Char → Bool} {a : Char} {t : List Char}
    (h : List.dropWhile p (a :: t) = a :: t) : p a = false := by
  by_cases hp : p a = true
  · rw [List.dropWhile_cons_of_pos hp] at h
    have hlen := (List.dropWhile_sublist (l := t) (p := p)).length_le
    rw [h] at hlen
    simp at hlen
  · simpa using hp

/-- The components of `streamLineShape`. -/
theorem streamLineShape_parts (l : List Char)
    (h : streamLineShape l = true) :
    startsWithBrace l = true ∧ pyWs (l.getLastD '{') = false ∧
      ∀ ch ∈ l, ch ≠ '\n' := by
  simp only [streamLineShape, Bool.and_eq_true, Bool.not_eq_true'] at h
  refine ⟨h.1.1, h.1.2, ?_⟩
  intro ch hch hc
  subst hc
  have htrue : l.any (fun ch => ch == '\n') = true :=
    List.any_eq_true.mpr ⟨'\n', hch, by simp⟩
  rw [htrue] at h
  exact absurd h.2 (by simp)

/-- The reverse of a shaped line survives a left whitespace strip. -/
theorem dropWhile_reverse_shape (l : List Char)
    (h : streamLineShape l = true) :
    List.dropWhile pyWs l.reverse = l.reverse := by
  obtain ⟨hb, hlast, _⟩ := streamLineShape_parts l h
  cases hr : l.reverse with
  | nil => rfl
  | cons a t =>
    refine List.dropWhile_cons_of_neg ?_
    have hhead : l.reverse.head? = some a := by rw [hr]; rfl
    rw [List.head?_reverse] at hhead
    rw [List.getLastD_eq_getLast?, hhead] at hlast
    simp only [Option.getD_some] at hlast
    simp [hlast]

/-- A shaped line is a fixed point of the Python strip. -/
theorem pyStrip_shape (l : List Char) (h : streamLineShape l = true) :
    pyStrip l = l := by
  obtain ⟨hb, _, _⟩ := streamLineShape_parts l h
  unfold pyStrip
  rw [dropWhile_brace l hb, dropWhile_reverse_shape l h,
    List.reverse_reverse]

/-- Splitting never produces an empty list of lines. -/
theorem splitLines_ne_nil (z : List Char) : splitLines z ≠ [] := by
  induction z with
  | nil => simp [splitLines]
  | cons c rest ih =>
    rw [splitLines_cons]
    cases hs : splitLines rest with
    | nil => exact absurd hs ih
    | cons a t =>
      split
      · rename_i heq
        exact absurd heq (by simp)
      · split <;> simp

/-- Splitting a newline-free text yields that single line. -/
theorem splitLines_of_noNL (l : List Char) (h : ∀ ch ∈ l, ch ≠ '\n') :
    splitLines l = [l] := by
  induction l with
  | nil => rfl
  | cons c rest ih =>
    have hc : (c == '\n') = false := by
      simpa using h c (List.mem_cons_self _ _)
    rw [splitLines_cons, ih (fun ch hch => h ch (List.mem_cons_of_mem _ hch))]
    simp [hc]

/-- Splitting a newline-free prefix, an explicit newline, and a rest. -/
theorem splitLines_append_nl (l : List Char) (h : ∀ ch ∈ l, ch ≠ '\n') :
    ∀ z, splitLines (l ++ '\n' :: z) = l :: splitLines z := by
  induction l with
  | nil =>
    intro z
    rw [List.nil_append, splitLines_cons]
    cases hs : splitLines z with
    | nil => exact absurd hs (splitLines_ne_nil z)
    | cons a t => simp
  | cons c rest ih =>
    intro z
    have hc : (c == '\n') = false := by
      simpa using h c (List.mem_cons_self _ _)
    rw [List.cons_append, splitLines_cons,
      ih (fun ch hch => h ch (List.mem_cons_of_mem _ hch)) z]
    simp [hc]

/-- Splitting inverts joining for newline-free lines. -/
theorem splitLines_joinNL (lines : List (List Char))
    (hne : lines ≠ []) (h : ∀ l ∈ lines, ∀ ch ∈ l, ch ≠ '\n') :
    splitLines (joinNL lines) = lines := by
  induction lines with
  | nil => exact absurd rfl hne
  | cons l rest ih =>
    cases rest with
    | nil =>
      exact splitLines_of_noNL l (h l (List.mem_cons_self _ _))
    | cons b rest2 =>
      show splitLines (l ++ '\n' :: joinNL (b :: rest2)) = _
      rw [splitLines_append_nl l (h l (List.mem_cons_self _ _)),
        ih (by simp) (fun x hx => h x (List.mem_cons_of_mem _ hx))]

end GeminiSdk

namespace GeminiSdk

/-- Joining brace-headed lines yields a brace-headed text. -/
theorem joinNL_brace (lines : List (List Char)) (l0 : List Char)
    (hmem : lines.head? = some l0) (hb : startsWithBrace l0 = true) :
    startsWithBrace (joinNL lines) = true := by
  cases lines with
  | nil => simp at hmem
  | cons l rest =>
    simp only [List.head?_cons, Option.some.injEq] at hmem
    subst hmem
    cases rest with
    | nil => exact hb
    | cons b rest2 =>
      unfold startsWithBrace at hb
      split at hb
      · rfl
      · exact absurd hb (by simp)

/-- The right strip is the identity on a join of shaped lines. -/
theorem dropWhile_reverse_joinNL (lines : List (List Char))
    (hne : lines ≠ []) (h : ∀ l ∈ lines, streamLineShape l = true) :
    List.dropWhile pyWs (joinNL lines).reverse = (joinNL lines).reverse := by
  induction lines with
  | nil => exact absurd rfl hne
  | cons l rest ih =>
    cases rest with
    | nil => exact dropWhile_reverse_shape l (h l (List.mem_cons_self _ _))
    | cons b rest2 =>
      show List.dropWhile pyWs (l ++ '\n' :: joinNL (b :: rest2)).reverse =
        (l ++ '\n' :: joinNL (b :: rest2)).reverse
      have hih := ih (by simp)
        (fun x hx => h x (List.mem_cons_of_mem _ hx))
      have hJ : ∃ w, joinNL (b :: rest2) = '{' :: w := by
        have hbs := (streamLineShape_parts b
          (h b (List.mem_cons_of_mem _ (List.mem_cons_self _ _)))).1
        have := joinNL_brace (b :: rest2) b (by rfl) hbs
        unfold startsWithBrace at this
        split at this
        · rename_i w heq
          exact ⟨_, heq⟩
        · exact absurd this (by simp)
      obtain ⟨w, hw⟩ := hJ
      rw [hw] at hih ⊢
      have hrev : (l ++ '\n' :: '{' :: w).reverse =
          ('{' :: w).reverse ++ '\n' :: l.reverse := by
        simp
      rw [hrev]
      cases hr : ('{' :: w).reverse with
      | nil => simp at hr
      | cons a t =>
        rw [hr] at hih
        have ha : pyWs a = false := dropWhile_fixed_head hih
        rw [List.cons_append]
        exact List.dropWhile_cons_of_neg (p := pyWs) (a := a) (by simp [ha])

end GeminiSdk

namespace GeminiSdk

/-- The Python strip is the identity on a join of shaped lines. -/
theorem pyStrip_joinNL (lines : List (List Char)) (hne : lines ≠ [])
    (h : ∀ l ∈ lines, streamLineShape l = true) :
    pyStrip (joinNL lines) = joinNL lines := by
  have hb : startsWithBrace (joinNL lines) = true := by
    cases lines with
    | nil => exact absurd rfl hne
    | cons l rest =>
      exact joinNL_brace (l :: rest) l rfl
        (streamLineShape_parts l (h l (List.mem_cons_self _ _))).1
  unfold pyStrip
  rw [dropWhile_brace _ hb, dropWhile_reverse_joinNL lines hne h,
    List.reverse_reverse]

/-- The cleaning loop keeps every line whose stripped form is
brace-headed. -/
theorem cleanLines_keep (lines : List (List Char))
    (h : ∀ l ∈ lines, startsWithBrace (pyStrip l) = true) :
    ∀ started, cleanLines lines started = lines := by
  induction lines with
  | nil => intro started; rfl
  | cons l rest ih =>
    intro started
    unfold cleanLines
    rw [if_pos (by simp [h l (List.mem_cons_self _ _)])]
    rw [ih (fun x hx => h x (List.mem_cons_of_mem _ hx)) true]

/-- Substring containment is preserved by prepending text. -/
theorem containsSeq_append_right (pat z : List Char)
    (h : containsSeq pat z = true) :
    ∀ x, containsSeq pat (x ++ z) = true := by
  intro x
  induction x with
  | nil => simpa using h
  | cons c xs ih =>
    rw [List.cons_append]
    unfold containsSeq
    rw [ih]
    simp

/-- A join of at least two brace-headed lines contains the
newline-brace sequence. -/
theorem containsSeq_joinNL (a b : List Char) (rest : List (List Char))
    (hb : startsWithBrace b = true) :
    containsSeq ['\n', '{'] (joinNL (a :: b :: rest)) = true := by
  have hJ : startsWithBrace (joinNL (b :: rest)) = true :=
    joinNL_brace (b :: rest) b rfl hb
  show containsSeq ['\n', '{'] (a ++ '\n' :: joinNL (b :: rest)) = true
  refine containsSeq_append_right _ _ ?_ a
  unfold startsWithBrace at hJ
  split at hJ
  · rename_i w heq
    rw [heq]
    rfl
  · exact absurd hJ (by simp)

/-- A join of at least two shaped lines is classified stream-JSON. -/
theorem detect_joinNL_stream (lines : List (List Char))
    (hlen : 2 ≤ lines.length)
    (h : ∀ l ∈ lines, streamLineShape l = true) :
    detectSingleJson (joinNL lines) = false := by
  cases lines with
  | nil => simp at hlen
  | cons a rest =>
    cases rest with
    | nil => simp at hlen
    | cons b rest2 =>
      have hbb := (streamLineShape_parts b
        (h b (List.mem_cons_of_mem _ (List.mem_cons_self _ _)))).1
      unfold detectSingleJson
      rw [containsSeq_joinNL a b rest2 hbb]
      simp

end GeminiSdk

namespace GeminiSdk

/-- A brace-headed text is a cons with head `{`. -/
theorem startsWithBrace_ex (z : List Char) (h : startsWithBrace z = true) :
    ∃ w, z = '{' :: w := by
  unfold startsWithBrace at h
  split at h
  · exact ⟨_, rfl⟩
  · exact absurd h (by simp)

/-- Parsing the join of at least two shaped stream lines runs the
stream loop on exactly those lines. -/
theorem parse_joinNL_stream (lines : List (List Char)) (e : String)
    (clock : Nat → Nat) (hlen : 2 ≤ lines.length)
    (h : ∀ l ∈ lines, streamLineShape l = true) :
    parse (String.mk (joinNL lines)) e clock =
      ((streamLoop clock ⟨none, 0⟩ lines).map Prod.fst).mapError
        .parsingError := by
  have hne : lines ≠ [] := by
    intro hc
    rw [hc] at hlen
    simp at hlen
  have hstrip := pyStrip_joinNL lines hne h
  have hnoNL : ∀ l ∈ lines, ∀ ch ∈ l, ch ≠ '\n' :=
    fun l hl => (streamLineShape_parts l (h l hl)).2.2
  have hsplit : splitLines (joinNL lines) = lines :=
    splitLines_joinNL lines hne hnoNL
  have hbJ : startsWithBrace (joinNL lines) = true := by
    cases lines with
    | nil => exact absurd rfl hne
    | cons l rest =>
      exact joinNL_brace (l :: rest) l rfl
        (streamLineShape_parts l (h l (List.mem_cons_self _ _))).1
  obtain ⟨w, hw⟩ := startsWithBrace_ex _ hbJ
  have hclean : cleanOutput (joinNL lines) = joinNL lines := by
    unfold cleanOutput
    rw [hstrip, hsplit,
      cleanLines_keep lines (fun l hl => by
        rw [pyStrip_shape l (h l hl)]
        exact (streamLineShape_parts l (h l hl)).1) false]
  have hdetJ : detectSingleJson (joinNL lines) = false :=
    detect_joinNL_stream lines hlen h
  unfold parse
  rw [if_neg (by
    show ¬ ((joinNL lines).isEmpty || (pyStrip (joinNL lines)).isEmpty) = true
    rw [hstrip, hw]
    simp)]
  show (let cleaned := cleanOutput (joinNL lines)
        if cleaned.isEmpty then (.ok [] : Except ParseError (List Message))
        else if detectSingleJson cleaned then
          ((parseSingleChars clock 0 cleaned).map Prod.fst).mapError
            .parsingError
        else
          ((parseStreamChars clock cleaned).map Prod.fst).mapError
            .parsingError) = _
  rw [hclean]
  dsimp only
  rw [if_neg (by rw [hw]; simp), if_neg (by rw [hdetJ]; simp)]
  unfold parseStreamChars
  rw [hstrip, hsplit]

end GeminiSdk

namespace GeminiSdk

/-- A shaped but undecodable line is skipped: nothing emitted, state
and clock counter unchanged. -/
theorem streamStep_skip_corrupt (clock : Nat → Nat) (st : StreamState)
    (c : List Char) (hsh : streamLineShape c = true)
    (hbad : jsonDecode c = none) :
    streamStep clock st c = .ok ([], st) := by
  obtain ⟨w, hw⟩ := startsWithBrace_ex c (streamLineShape_parts c hsh).1
  unfold streamStep
  dsimp only
  rw [pyStrip_shape c hsh, hbad]
  rw [if_neg (by
    rw [hw]
    simp [show startsWithBrace ('{' :: w) = true from rfl])]

/-- Inserting a skipped line anywhere leaves the loop's outcome
unchanged. -/
theorem streamLoop_insertIdx_skip (clock : Nat → Nat) (c : List Char)
    (hsh : streamLineShape c = true) (hbad : jsonDecode c = none) :
    ∀ (lines : List (List Char)) (i : Nat) (st : StreamState),
      streamLoop clock st (List.insertIdx i c lines) =
        streamLoop clock st lines := by
  intro lines
  induction lines with
  | nil =>
    intro i st
    cases i with
    | zero =>
      rw [List.insertIdx_zero]
      show (do
        let p ← streamStep clock st c
        let q ← streamLoop clock p.2 []
        (.ok (p.1 ++ q.1, q.2) : Except PyFault (List Message × StreamState))) = _
      rw [streamStep_skip_corrupt clock st c hsh hbad]
      rfl
    | succ n => rw [List.insertIdx_succ_nil]
  | cons a rest ih =>
    intro i st
    cases i with
    | zero =>
      rw [List.insertIdx_zero]
      show (do
        let p ← streamStep clock st c
        let q ← streamLoop clock p.2 (a :: rest)
        (.ok (p.1 ++ q.1, q.2) : Except PyFault (List Message × StreamState))) = _
      rw [streamStep_skip_corrupt clock st c hsh hbad]
      simp only [exBind_ok]
      cases hq : streamLoop clock st (a :: rest) with
      | error f => rfl
      | ok q => simp [exBind_ok]
    | succ n =>
      rw [List.insertIdx_succ_cons]
      show (do
        let p ← streamStep clock st a
        let q ← streamLoop clock p.2 (List.insertIdx n c rest)
        (.ok (p.1 ++ q.1, q.2) : Except PyFault (List Message × StreamState))) =
        (do
        let p ← streamStep clock st a
        let q ← streamLoop clock p.2 rest
        (.ok (p.1 ++ q.1, q.2) : Except PyFault (List Message × StreamState)))
      cases hstep : streamStep clock st a with
      | error f => rfl
      | ok p =>
        simp only [exBind_ok]
        rw [ih n p.2]

/-- C2: interleaving one corrupt (non-decodable) line anywhere among
the shaped lines of a stream-JSON payload leaves the parse outcome
exactly as for the valid lines alone — the corrupt line contributes
nothing and raises nothing. -/
theorem parse_corrupt_line_isolated (e : String) (clock : Nat → Nat)
    (lines : List (List Char)) (c : List Char) (i : Nat)
    (hlen : 2 ≤ lines.length)
    (hshape : ∀ l ∈ lines, streamLineShape l = true)
    (hvalid : ∀ l ∈ lines, (jsonDecode l).isSome = true)
    (hcshape : streamLineShape c = true)
    (hcbad : jsonDecode c = none) :
    parse (String.mk (joinNL (List.insertIdx i c lines))) e clock =
      parse (String.mk (joinNL lines)) e clock := by
  by_cases hi : i ≤ lines.length
  · have hmem : ∀ l ∈ List.insertIdx i c lines, streamLineShape l = true := by
      intro l hl
      rcases (List.mem_insertIdx hi).mp hl with rfl | hl
      · exact hcshape
      · exact hshape l hl
    have hlen2 : 2 ≤ (List.insertIdx i c lines).length := by
      rw [List.length_insertIdx i lines hi]
      omega
    rw [parse_joinNL_stream _ e clock hlen2 hmem,
      parse_joinNL_stream lines e clock hlen hshape,
      streamLoop_insertIdx_skip clock c hcshape hcbad lines i]
  · rw [List.insertIdx_of_length_lt lines c i (by omega)]

/-- Witness lines for C2: two valid stream events. -/
def wC2Lines : List (List Char) :=
  ["\x7b\"type\":\"init\",\"session_id\":\"abc\"\x7d".data,
   "\x7b\"type\":\"message\",\"role\":\"user\",\"content\":\"hi\"\x7d".data]

/-- Witness corrupt line for C2. -/
def wC2Corrupt : List Char := "\x7boops".data

set_option maxRecDepth 100000 in
/-- Witness for C2: inserting the corrupt line between two valid lines
leaves the parsed messages unchanged. -/
theorem parse_corrupt_line_isolated_witness :
    (2 ≤ wC2Lines.length ∧ streamLineShape wC2Corrupt = true ∧
     jsonDecode wC2Corrupt = none) ∧
    parse (String.mk (joinNL (List.insertIdx 1 wC2Corrupt wC2Lines))) ""
        (fun k => k) =
      parse (String.mk (joinNL wC2Lines)) "" (fun k => k) :=
  ⟨⟨by decide, by decide, rfl⟩,
   parse_corrupt_line_isolated "" (fun k => k) wC2Lines wC2Corrupt 1
     (by decide) (by decide) (by decide) (by decide) rfl⟩

end GeminiSdk
